import Mathlib

/-!
Verification of the batch generation engine of `faker_producer.py`
(synthetic food-delivery event producer with Pydantic validation).

Python strings are modelled as `List Char`, Python `Decimal` as `ℚ`
(decimal arithmetic at the precisions used here is exact), and the
process-wide uniqueness registry as explicit state threaded through the
factory functions.  Randomness (Faker draws, `random.*`) is modelled by
oracle streams supplied as function arguments, so every theorem is
universally quantified over the random draws.
-/

namespace FakerProducer

/-- Python strings, modelled as lists of characters. -/
abbrev PyStr := List Char

/-- Convenience: turn a Lean string literal into a `PyStr`. -/
def pys (s : String) : PyStr := s.data

/-- Model of the whitespace characters removed by Python `str.strip()`
(restricted to the ASCII whitespace this program's generated data can
contain). -/
def isPySpace (c : Char) : Bool :=
  c == ' ' || c == '\t' || c == '\n' || c == '\r' || c == '\x0b' || c == '\x0c'

/-- Model of Python `str.strip()`: remove leading and trailing whitespace. -/
def pyStrip (l : PyStr) : PyStr :=
  ((l.dropWhile isPySpace).reverse.dropWhile isPySpace).reverse

/-- Model of Python `str.lower()` on one character (ASCII case mapping;
the generated data is ASCII). -/
def pyLowerChar (c : Char) : Char :=
  if 'A' ≤ c ∧ c ≤ 'Z' then Char.ofNat (c.toNat + 32) else c

/-- Model of Python `str.lower()`. -/
def pyLower (l : PyStr) : PyStr := l.map pyLowerChar

/-- Model of Python `str.isdigit()` on one character: true for characters
of Unicode Numeric_Type Decimal (category Nd, the characters `\d`
matches) or Numeric_Type Digit (accepted by `isdigit()` but *not* by
`\d`: superscripts and subscripts such as `'²'`).  The Unicode tables are
modelled by a representative set of ranges — ASCII and several Nd digit
scripts, plus the super/subscript Digit characters — whose essential
feature is that the predicate strictly contains the decimal digits. -/
def pyIsdigitChar (c : Char) : Bool :=
  c.isDigit ||
  (0x660 ≤ c.toNat && c.toNat ≤ 0x669) ||
  (0x6F0 ≤ c.toNat && c.toNat ≤ 0x6F9) ||
  (0x966 ≤ c.toNat && c.toNat ≤ 0x96F) ||
  (0x9E6 ≤ c.toNat && c.toNat ≤ 0x9EF) ||
  (0xFF10 ≤ c.toNat && c.toNat ≤ 0xFF19) ||
  c.toNat == 0xB9 || c.toNat == 0xB2 || c.toNat == 0xB3 ||
  c.toNat == 0x2070 ||
  (0x2074 ≤ c.toNat && c.toNat ≤ 0x2079) ||
  (0x2080 ≤ c.toNat && c.toNat ≤ 0x2089)

/-- Model of Python `str.isdigit()`: true iff the string is nonempty and
every character is `isdigit()`-true (Numeric_Type Decimal or Digit). -/
def pyIsdigit (l : PyStr) : Bool := !l.isEmpty && l.all pyIsdigitChar

/-- Model of `v.replace("Z", "+00:00")` from the ISO validators. -/
def replaceZ (l : PyStr) : PyStr :=
  l.flatMap (fun c => if c = 'Z' then (pys "+00:00") else [c])

/-- Numeric value of a digit string. -/
def natVal (l : PyStr) : ℕ := l.foldl (fun a c => 10 * a + (c.toNat - '0'.toNat)) 0

/-- `Decimal(str(v)).quantize(Decimal("0.01"), rounding=ROUND_HALF_UP)`:
round a value to 2 decimal places, ties away from zero (the `to_decimal`
helper and the explicit `quantize` calls in the source). -/
def roundHalfUp2 (q : ℚ) : ℚ :=
  if 0 ≤ q then ((⌊q * 100 + 1/2⌋ : ℤ) : ℚ) / 100
  else -(((⌊-q * 100 + 1/2⌋ : ℤ) : ℚ) / 100)

/-- Model of Python `random.randint(a, b)` (inclusve bounds), driven by an
oracle seed. -/
def pyRandint (a b seed : ℕ) : ℕ := a + seed % (b + 1 - a)

/-- Model of `random.choice(l)`: `none` models the `IndexError` raised on an
empty sequence. -/
def pyChoice {α : Type} (l : List α) (seed : ℕ) : Option α :=
  l.get? (seed % max 1 l.length)

/-- Model of `random.sample(l, k)`: `k` distinct elements of `l` (the exact
positions drawn are randomness, abstracted by the seed). -/
def pySample {α : Type} (l : List α) (k seed : ℕ) : List α :=
  (l.rotate (seed % max 1 l.length)).take k

/-- Model of Python `float(s)` for the literal shapes this program produces:
optional sign, integer digits, optional fractional digits (no exponent,
infinity or NaN forms, which no generated coordinate string contains). -/
def parseFloat (l : PyStr) : Option ℚ :=
  let (sign, rest) : ℚ × PyStr :=
    match l with
    | '+' :: r => (1, r)
    | '-' :: r => (-1, r)
    | r => (1, r)
  let intPart := rest.takeWhile Char.isDigit
  let rest2 := rest.dropWhile Char.isDigit
  match rest2 with
  | [] => if intPart.isEmpty then none else some (sign * (natVal intPart : ℚ))
  | '.' :: frac =>
    let fd := frac.takeWhile Char.isDigit
    if !(frac.dropWhile Char.isDigit).isEmpty then none
    else if intPart.isEmpty && fd.isEmpty then none
    else some (sign * ((natVal intPart : ℚ) + (natVal fd : ℚ) / (10 : ℚ) ^ fd.length))
  | _ => none

/-- Timezone suffix of an ISO string: empty, or `±HH:MM`. -/
def tzOk : PyStr → Bool
  | [] => true
  | sign :: h1 :: h2 :: ':' :: m1 :: m2 :: [] =>
    (sign == '+' || sign == '-') && [h1, h2, m1, m2].all Char.isDigit &&
    (10 * (h1.toNat - '0'.toNat) + (h2.toNat - '0'.toNat) < 24) &&
    (10 * (m1.toNat - '0'.toNat) + (m2.toNat - '0'.toNat) < 60)
  | _ => false

/-- Optional fractional seconds followed by an optional timezone. -/
def fracTzOk : PyStr → Bool
  | '.' :: rest =>
    let fd := rest.takeWhile Char.isDigit
    (1 ≤ fd.length && fd.length ≤ 6) && tzOk (rest.dropWhile Char.isDigit)
  | rest => tzOk rest

/-- Time-of-day part of an ISO string: `HH:MM[:SS[.ffffff]][±HH:MM]`. -/
def hmsOk : PyStr → Bool
  | h1 :: h2 :: ':' :: mi1 :: mi2 :: ':' :: s1 :: s2 :: rest =>
    [h1, h2, mi1, mi2, s1, s2].all Char.isDigit &&
    (10 * (h1.toNat - '0'.toNat) + (h2.toNat - '0'.toNat) < 24) &&
    (10 * (mi1.toNat - '0'.toNat) + (mi2.toNat - '0'.toNat) < 60) &&
    (10 * (s1.toNat - '0'.toNat) + (s2.toNat - '0'.toNat) < 60) &&
    fracTzOk rest
  | h1 :: h2 :: ':' :: mi1 :: mi2 :: rest =>
    [h1, h2, mi1, mi2].all Char.isDigit &&
    (10 * (h1.toNat - '0'.toNat) + (h2.toNat - '0'.toNat) < 24) &&
    (10 * (mi1.toNat - '0'.toNat) + (mi2.toNat - '0'.toNat) < 60) &&
    tzOk rest
  | _ => false

/-- Model of `datetime.fromisoformat` (simplified to the formats this
program generates: a `YYYY-MM-DD` date, optionally followed by a `T` or
space separator and a time of day). -/
def isoOk : PyStr → Bool
  | y1 :: y2 :: y3 :: y4 :: '-' :: m1 :: m2 :: '-' :: d1 :: d2 :: rest =>
    [y1, y2, y3, y4, m1, m2, d1, d2].all Char.isDigit &&
    (1 ≤ 10 * (m1.toNat - '0'.toNat) + (m2.toNat - '0'.toNat)) &&
    (10 * (m1.toNat - '0'.toNat) + (m2.toNat - '0'.toNat) ≤ 12) &&
    (1 ≤ 10 * (d1.toNat - '0'.toNat) + (d2.toNat - '0'.toNat)) &&
    (10 * (d1.toNat - '0'.toNat) + (d2.toNat - '0'.toNat) ≤ 31) &&
    (match rest with
     | [] => true
     | sep :: t => (sep == 'T' || sep == ' ') && hmsOk t)
  | _ => false

/-- The shared ISO check of the `validate_iso` validators:
`datetime.fromisoformat(v.replace("Z", "+00:00"))` succeeds. -/
def isoRepOk (l : PyStr) : Bool := isoOk (replaceZ l)

/-- The None-guarded variant used for optional timestamp fields
(`if v is None: return v`). -/
def isoOptRepOk : Option PyStr → Bool
  | none => true
  | some s => isoRepOk s

/-!
## Data model

One structure per Pydantic model.  Validation passes fields through
unchanged except where a validator returns a transformed value
(stripped names, quantized monetary fields), so the candidate and the
validated record share a type.  Pass-through fields that no validator
inspects are carried as plain data.
-/

/-- `CustomerModel`. -/
structure Customer where
  customer_id : PyStr
  name : PyStr
  mobile : PyStr
  email : PyStr
  loginbyusing : Option PyStr
  gender : Option PyStr
  dob : Option PyStr
  preferences : Option (List (PyStr × PyStr))
  created_date : PyStr
deriving DecidableEq, Repr

/-- `AddressModel`. -/
structure Address where
  address_id : PyStr
  customer_id : PyStr
  flatno : Option PyStr
  houseno : Option PyStr
  floor : Option PyStr
  building : Option PyStr
  landmark : Option PyStr
  coordinates : Option PyStr
  primaryflag : Option PyStr
  address_type : Option PyStr
  locality : Option PyStr
  city : Option PyStr
  state : Option PyStr
  pincode : Option ℤ
  created_date : PyStr
deriving DecidableEq, Repr

/-- `RestaurantModel`. -/
structure Restaurant where
  restaurant_id : PyStr
  name : PyStr
  cuisine_type : Option PyStr
  pricing_for_2 : ℚ
  location_id : Option PyStr
  created_date : PyStr
deriving DecidableEq, Repr

/-- `MenuModel`. -/
structure Menu where
  menu_id : PyStr
  restaurant_id : PyStr
  itemname : PyStr
  description : Option PyStr
  price : ℚ
  activeflag : Option PyStr
  created_date : PyStr
deriving DecidableEq, Repr

/-- `OrderItemModel`. -/
structure OrderItem where
  orderitem_id : PyStr
  order_id : PyStr
  menu_id : PyStr
  quantity : ℤ
  price : ℚ
  subtotal : ℚ
deriving DecidableEq, Repr

/-- `OrderModel`. -/
structure Order where
  order_id : PyStr
  customer_id : PyStr
  restaurant_id : PyStr
  order_date : PyStr
  totalamount : ℚ
  status : Option PyStr
  paymentmethod : Option PyStr
  created_date : PyStr
deriving DecidableEq, Repr

/-- `DeliveryAgentModel`. -/
structure DeliveryAgent where
  deliveryagent_id : PyStr
  name : PyStr
  phone : PyStr
  vehicle_type : Option PyStr
  location_id : Option PyStr
  status : Option PyStr
  rating : Option ℚ
  created_date : PyStr
deriving DecidableEq, Repr

/-- `DeliveryModel`. -/
structure Delivery where
  delivery_id : PyStr
  order_id : PyStr
  deliveryagent_id : PyStr
  deliverystatus : Option PyStr
  estimated_time : Option PyStr
  address_id : PyStr
  delivery_date : Option PyStr
  created_date : PyStr
deriving DecidableEq, Repr

/-- `LoginAuditModel`. -/
structure LoginAudit where
  login_id : PyStr
  customer_id : PyStr
  logintype : Option PyStr
  deviceinterface : Option PyStr
  mobiledevicename : Option PyStr
  webinterface : Option PyStr
  lastlogin : Option PyStr
deriving DecidableEq, Repr

/-!
## Validation layer

Each Pydantic validator raises `ValueError` on a bad field; pydantic v2
collects those into a `ValidationError`, which `validate_or_log` catches
and turns into `None`.  A validator that raises any other exception
(`AttributeError` below) escapes `validate_or_log`.  Validators whose
raises are all `ValueError` are therefore modelled as `Option`-valued
functions; `LoginAuditModel`, whose `lastlogin_ok` can raise
`AttributeError`, is modelled in `Except`.
-/

/-- The exception classes that matter to `validate_or_log`: pydantic's
`ValidationError` (caught) and anything else, here `AttributeError`
(uncaught). -/
inductive PyExc where
  | validationError
  | attributeError
deriving DecidableEq, Repr

/-- `validate_or_log`: catches `ValidationError` (returning `None`), lets
any other exception propagate. -/
def validateOrLog {α : Type} : Except PyExc α → Except PyExc (Option α)
  | .ok a => .ok (some a)
  | .error .validationError => .ok none
  | .error e => .error e

/-- `CustomerModel.validate_mobile` / `DeliveryAgentModel.validate_mobile`:
`len(v) != 10 or v[0] not in "6789" or not v.isdigit()` raises (the two
validators are textually identical in the source). -/
def mobileCheck : PyStr → Bool
  | [] => false
  | c :: t =>
    (c :: t).length == 10 && (c == '6' || c == '7' || c == '8' || c == '9') &&
    pyIsdigit (c :: t)

/-- `CustomerModel`: mobile format, ISO checks on `dob` (None-guarded) and
`created_date`; no validator inspects any other field. -/
def validateCustomer (c : Customer) : Option Customer :=
  if mobileCheck c.mobile && isoOptRepOk c.dob && isoRepOk c.created_date
  then some c else none

/-- `AddressModel.validate_coordinates`: when the value is truthy, split on
a comma into exactly two floats within latitude/longitude bounds (a float
parse failure is a `ValueError`, hence a validation failure). -/
def coordsCheck : Option PyStr → Bool
  | none => true
  | some [] => true
  | some l =>
    match l.splitOn ',' with
    | [a, b] =>
      match parseFloat a, parseFloat b with
      | some lat, some lon =>
        decide (-90 ≤ lat) && decide (lat ≤ 90) &&
        decide (-180 ≤ lon) && decide (lon ≤ 180)
      | _, _ => false
    | _ => false

/-- `AddressModel.validate_pincode`: `if v and (v < 100000 or v > 999999)`
raises — `None` and `0` are falsy and skip the range check. -/
def pincodeCheck : Option ℤ → Bool
  | none => true
  | some z => z == 0 || (decide (100000 ≤ z) && decide (z ≤ 999999))

/-- `AddressModel`. -/
def validateAddress (a : Address) : Option Address :=
  if coordsCheck a.coordinates && pincodeCheck a.pincode && isoRepOk a.created_date
  then some a else none

/-- `RestaurantModel`: `name_nonempty` strips the name and bounds its
length, `validate_price` requires a positive price and quantizes it,
`validate_iso` checks `created_date`. -/
def validateRestaurant (r : Restaurant) : Option Restaurant :=
  let nm := pyStrip r.name
  if !nm.isEmpty && nm.length ≤ 200 && decide (0 < r.pricing_for_2) &&
     isoRepOk r.created_date
  then some { r with name := nm, pricing_for_2 := roundHalfUp2 r.pricing_for_2 }
  else none

/-- `MenuModel`: like `RestaurantModel` with a 150-character name bound. -/
def validateMenu (m : Menu) : Option Menu :=
  let nm := pyStrip m.itemname
  if !nm.isEmpty && nm.length ≤ 150 && decide (0 < m.price) &&
     isoRepOk m.created_date
  then some { m with itemname := nm, price := roundHalfUp2 m.price }
  else none

/-- `OrderItemModel`: `quantity_positive`, `decimal_positive` on price and
subtotal (quantize then reject negatives), then the `check_subtotal`
model validator: raise iff
`subtotal != expected and subtotal < expected - 0.01` where
`expected = (price * quantity).quantize(0.01, HALF_UP)` over the already
quantized fields. -/
def validateOrderItem (it : OrderItem) : Option OrderItem :=
  let p := roundHalfUp2 it.price
  let st := roundHalfUp2 it.subtotal
  let expected := roundHalfUp2 (p * (it.quantity : ℚ))
  if decide (0 < it.quantity) && decide (0 ≤ p) && decide (0 ≤ st) &&
     !(decide (st ≠ expected) && decide (st < expected - 1/100))
  then some { it with price := p, subtotal := st }
  else none

/-- `OrderModel`: ISO checks on both dates, `total_positive` quantizes the
total and rejects negatives. -/
def validateOrder (o : Order) : Option Order :=
  if isoRepOk o.order_date && isoRepOk o.created_date &&
     decide (0 ≤ roundHalfUp2 o.totalamount)
  then some { o with totalamount := roundHalfUp2 o.totalamount }
  else none

/-- `DeliveryAgentModel.rating_ok`: `None` passes, otherwise quantize and
require a value in `[0, 5]`. -/
def ratingCheck : Option ℚ → Bool
  | none => true
  | some v => decide (0 ≤ roundHalfUp2 v) && decide (roundHalfUp2 v ≤ 5)

/-- `DeliveryAgentModel`: phone format (same check as customer mobile),
rating bound, ISO `created_date`. -/
def validateDeliveryAgent (a : DeliveryAgent) : Option DeliveryAgent :=
  if mobileCheck a.phone && ratingCheck a.rating && isoRepOk a.created_date
  then some { a with rating := a.rating.map roundHalfUp2 }
  else none

/-- `DeliveryModel`: None-guarded ISO checks on `delivery_date` and
`created_date`. -/
def validateDelivery (d : Delivery) : Option Delivery :=
  if isoOptRepOk d.delivery_date && isoRepOk d.created_date
  then some d else none

/-- `LoginAuditModel.lastlogin_ok` has no `None` guard: on a null
`lastlogin` the expression `v.replace(...)` raises `AttributeError`
(not a `ValueError`), which pydantic v2 does not convert into a
`ValidationError`. -/
def validateLoginAudit (la : LoginAudit) : Except PyExc LoginAudit :=
  match la.lastlogin with
  | none => .error .attributeError
  | some s => if isoRepOk s then .ok la else .error .validationError

/-- `validate_or_log(payload, LoginAuditModel)`. -/
def validateOrLogLoginAudit (la : LoginAudit) : Except PyExc (Option LoginAudit) :=
  validateOrLog (validateLoginAudit la)

/-!
## Uniqueness registry and entity factories

The module-level sets `existing_customer_mobiles`, …, `existing_menu_keys`
become one explicit `Registry` value threaded through the factories.
Python `set.add` is modelled by consing the key (membership is all the
code ever asks).  Each uniqueness-constrained factory is a fuel recursion
with fuel `MAX_UNIQUENESS_ATTEMPTS = 20`; the candidate of attempt `i`
comes from an oracle stream `gen i` standing for the Faker/random draws.
-/

/-- `MAX_UNIQUENESS_ATTEMPTS` from the configuration block. -/
def MAX_UNIQUENESS_ATTEMPTS : ℕ := 20

/-- The six module-level uniqueness sets. -/
structure Registry where
  mobiles : List PyStr
  emails : List PyStr
  nameDobs : List (PyStr × Option PyStr)
  agentPhones : List PyStr
  restKeys : List (PyStr × Option PyStr)
  menuKeys : List (PyStr × PyStr)
deriving DecidableEq, Repr

/-- The registry at process start: all six sets empty. -/
def Registry.empty : Registry := ⟨[], [], [], [], [], []⟩

/-- Componentwise containment of registries, the relation that holds
between the registry at one point of the process lifetime and the
registry at any later point. -/
def Registry.Sub (s t : Registry) : Prop :=
  s.mobiles ⊆ t.mobiles ∧ s.emails ⊆ t.emails ∧ s.nameDobs ⊆ t.nameDobs ∧
  s.agentPhones ⊆ t.agentPhones ∧ s.restKeys ⊆ t.restKeys ∧
  s.menuKeys ⊆ t.menuKeys

theorem Registry.Sub.rfl (s : Registry) : Registry.Sub s s :=
  ⟨fun _ h => h, fun _ h => h, fun _ h => h, fun _ h => h, fun _ h => h,
   fun _ h => h⟩

/-- The natural keys of a customer record as the code registers them:
`mobile`, `email.lower()` and `(name.strip().lower(), dob)`. -/
def custMobileKey (c : Customer) : PyStr := c.mobile
def custEmailKey (c : Customer) : PyStr := pyLower c.email
def custNameDobKey (c : Customer) : PyStr × Option PyStr :=
  (pyLower (pyStrip c.name), c.dob)

/-- Restaurant natural key `(name.strip().lower(), location_id)`. -/
def restKey (r : Restaurant) : PyStr × Option PyStr :=
  (pyLower (pyStrip r.name), r.location_id)

/-- Menu natural key `(restaurant_id, itemname.strip().lower())`. -/
def menuKey (m : Menu) : PyStr × PyStr :=
  (m.restaurant_id, pyLower (pyStrip m.itemname))

/-- Agent natural key: the phone. -/
def agentKey (a : DeliveryAgent) : PyStr := a.phone

/-- The retry loop shared by the four uniqueness-constrained factories:
on attempt `i`, draw the candidate `gen i`; a registry collision
(`collide`) or a validation failure `continue`s without touching the
registry; a validated unique record is registered and returned.  The
registry argument never changes across failed attempts, so `collide` and
`register` close over the entry state `s`. -/
def uniqueLoop {α β : Type} (gen : ℕ → α) (collide : α → Bool)
    (validate : α → Option β) (register : β → Registry) (s : Registry) :
    ℕ → ℕ → Option β × Registry
  | _, 0 => (none, s)
  | i, fuel + 1 =>
    if collide (gen i) then uniqueLoop gen collide validate register s (i + 1) fuel
    else
      match validate (gen i) with
      | none => uniqueLoop gen collide validate register s (i + 1) fuel
      | some v => (some v, register v)

/-- `make_customer_unique`: collision on mobile, lowered email, or
(stripped lowered name, dob); on success all three keys of the validated
record are added to the registry. -/
def makeCustomerUnique (gen : ℕ → Customer) (s : Registry) :
    Option Customer × Registry :=
  uniqueLoop gen
    (fun p => decide (p.mobile ∈ s.mobiles ∨ pyLower p.email ∈ s.emails ∨
      (pyLower (pyStrip p.name), p.dob) ∈ s.nameDobs))
    validateCustomer
    (fun v =>
      { s with
          mobiles := v.mobile :: s.mobiles
          emails := pyLower v.email :: s.emails
          nameDobs := (pyLower (pyStrip v.name), v.dob) :: s.nameDobs })
    s 0 MAX_UNIQUENESS_ATTEMPTS

/-- `make_restaurant_unique`: collision on
`(name.strip().lower(), location_id)`; the validated record's key is
registered (its name has been stripped by `name_nonempty`). -/
def makeRestaurantUnique (gen : ℕ → Restaurant) (s : Registry) :
    Option Restaurant × Registry :=
  uniqueLoop gen
    (fun p => decide ((pyLower (pyStrip p.name), p.location_id) ∈ s.restKeys))
    validateRestaurant
    (fun v => { s with restKeys := (pyLower (pyStrip v.name), v.location_id) :: s.restKeys })
    s 0 MAX_UNIQUENESS_ATTEMPTS

/-- `make_menu_unique(restaurant_id)`: the payload ties the candidate to
the given restaurant; collision on `(restaurant_id, itemname.strip().lower())`. -/
def makeMenuUnique (rid : PyStr) (gen : ℕ → Menu) (s : Registry) :
    Option Menu × Registry :=
  uniqueLoop (fun i => { gen i with restaurant_id := rid })
    (fun p => decide ((rid, pyLower (pyStrip p.itemname)) ∈ s.menuKeys))
    validateMenu
    (fun v => { s with menuKeys := (v.restaurant_id, pyLower (pyStrip v.itemname)) :: s.menuKeys })
    s 0 MAX_UNIQUENESS_ATTEMPTS

/-- `make_deliveryagent_unique`: the freshly drawn phone is checked
against the registry before the payload is built. -/
def makeDeliveryAgentUnique (gen : ℕ → DeliveryAgent) (s : Registry) :
    Option DeliveryAgent × Registry :=
  uniqueLoop gen
    (fun p => decide (p.phone ∈ s.agentPhones))
    validateDeliveryAgent
    (fun v => { s with agentPhones := v.phone :: s.agentPhones })
    s 0 MAX_UNIQUENESS_ATTEMPTS

/-- `make_delivery(order_id, deliveryagent_id, address_id)`: fill the
payload's reference fields and validate (the other fields come from the
randomness oracle). -/
def makeDelivery (cand : Delivery) (oid agid aid : PyStr) : Option Delivery :=
  validateDelivery { cand with order_id := oid, deliveryagent_id := agid, address_id := aid }

/-!
## Order + items factory

`make_order_with_items(customer_id, restaurant_id, menus_for_rest)`:
`random.sample` picks `randint(1, min(3, len(menus)))` distinct menu
items; each item gets `qty = randint(1, 3)` and
`subtotal = (price * qty).quantize(0.01, HALF_UP)`; items that fail
validation are dropped; the order is built only if at least one item
survived, with `totalamount = sum(subtotals) + to_decimal(uniform(10, 60))`.
-/

/-- The menu items chosen by `random.sample(menus_for_rest, k)` with
`k = random.randint(1, min(3, len(menus_for_rest)))`. -/
def chosenMenus (menus : List Menu) (kSeed sampleSeed : ℕ) : List Menu :=
  pySample menus (pyRandint 1 (min 3 menus.length) kSeed) sampleSeed

/-- The order items that survive `validate_or_log(..., OrderItemModel)`,
in choice order.  `qty j` seeds the `randint(1, 3)` quantity of item `j`
and `iid j` its generated id. -/
def orderItemsSurviving (oid : PyStr) (iid : ℕ → PyStr) (chosen : List Menu)
    (qty : ℕ → ℕ) : List OrderItem :=
  chosen.enum.filterMap fun jm =>
    validateOrderItem
      { orderitem_id := iid jm.1
        order_id := oid
        menu_id := jm.2.menu_id
        quantity := (pyRandint 1 3 (qty jm.1) : ℤ)
        price := jm.2.price
        subtotal := roundHalfUp2 (jm.2.price * (pyRandint 1 3 (qty jm.1) : ℚ)) }

/-- `make_order_with_items`. -/
def makeOrderWithItems (cid rid : PyStr) (menus : List Menu)
    (kSeed sampleSeed : ℕ) (qty : ℕ → ℕ) (u : ℚ) (oid : PyStr)
    (iid : ℕ → PyStr) (odate ocreated : PyStr) (status paymeth : Option PyStr) :
    Option Order × List OrderItem :=
  if menus.isEmpty then (none, [])
  else
    let items := orderItemsSurviving oid iid (chosenMenus menus kSeed sampleSeed) qty
    if items.isEmpty then (none, [])
    else
      let total := (items.map OrderItem.subtotal).sum + roundHalfUp2 u
      (validateOrder
        { order_id := oid
          customer_id := cid
          restaurant_id := rid
          order_date := odate
          totalamount := total
          status := status
          paymentmethod := paymeth
          created_date := ocreated }, items)

/-!
## Batch builder

`build_batch(batch_size)` as a composition of its stages.  All random
draws (Faker candidates, counts, coin flips, choices) come from the
oracle streams of a `BatchEnv`.  `random.choice` on an empty pool raises
`IndexError`, so the order loop — the only place an unguarded choice
occurs — is `Option`-valued, with `none` modelling the crash.
-/

/-- One element of the heterogeneous `rows` list. -/
inductive Row where
  | customer (c : Customer)
  | address (a : Address)
  | login (la : LoginAudit)
  | restaurant (r : Restaurant)
  | menu (m : Menu)
  | agent (a : DeliveryAgent)
  | order (o : Order)
  | orderitem (it : OrderItem)
  | delivery (d : Delivery)
deriving DecidableEq, Repr

/-- Oracle streams standing for every random draw `build_batch` makes.
Indices identify the call site (stage iteration and, where needed, the
attempt or slot inside it). -/
structure BatchEnv where
  custCand : ℕ → ℕ → Customer
  nAddrSeed : ℕ → ℕ
  addrCand : ℕ → ℕ → Address
  doLogin : ℕ → Bool
  loginCand : ℕ → LoginAudit
  lastloginStr : ℕ → PyStr
  restCand : ℕ → ℕ → Restaurant
  nMenuSeed : ℕ → ℕ
  menuCand : ℕ → ℕ → ℕ → Menu
  fallbackId : ℕ → PyStr
  fallbackNow : ℕ → PyStr
  agentCand : ℕ → ℕ → DeliveryAgent
  pickCSeed : ℕ → ℕ
  pickRSeed : ℕ → ℕ
  kSeed : ℕ → ℕ
  sampleSeed : ℕ → ℕ
  qtySeed : ℕ → ℕ → ℕ
  surcharge : ℕ → ℚ
  orderIds : ℕ → PyStr
  itemIds : ℕ → ℕ → PyStr
  orderDateStr : ℕ → PyStr
  orderCreatedStr : ℕ → PyStr
  orderStatus : ℕ → Option PyStr
  payMethod : ℕ → Option PyStr
  doDeliv : ℕ → Bool
  pickASeed : ℕ → ℕ
  pickAgSeed : ℕ → ℕ
  delivCand : ℕ → Delivery

/-- Customer generation loop:
`while len(customers) < num_customers and attempts < num_customers * 10`.
The fuel is the remaining attempt budget, `t` the attempt counter used to
index the candidate streams.  Rows are recovered as
`customers.map Row.customer` since a customer is appended to `rows`
exactly when it is appended to `customers`. -/
def customersLoop (env : BatchEnv) (num : ℕ) :
    ℕ → ℕ → List Customer → Registry → List Customer × Registry
  | 0, _, acc, s => (acc, s)
  | b + 1, t, acc, s =>
    if acc.length < num then
      match (makeCustomerUnique (env.custCand t) s).1 with
      | some c =>
        customersLoop env num b (t + 1) (acc ++ [c]) (makeCustomerUnique (env.custCand t) s).2
      | none =>
        customersLoop env num b (t + 1) acc (makeCustomerUnique (env.custCand t) s).2
    else (acc, s)

/-- `make_loginaudit`, whose payload always carries a (string) `lastlogin`
of `now_iso()`; with a non-null `lastlogin` the `LoginAuditModel`
validators can only raise `ValueError`, so `validate_or_log` returns a
record or `None` (see `validateLoginAudit_some_no_crash`). -/
def loginValidOpt (la : LoginAudit) : Option LoginAudit :=
  match validateOrLogLoginAudit la with
  | .ok o => o
  | .error _ => none

/-- Stage 3: for each customer, `randint(1, 2)` addresses (validated
records are appended to the `addresses` pool and to `rows`) and, with
probability 0.4, one login-audit row. -/
def addressStage (env : BatchEnv) : ℕ → List Customer → List Address × List Row
  | _, [] => ([], [])
  | i, c :: rest =>
    let cnt := pyRandint 1 2 (env.nAddrSeed i)
    let as_ := (List.range cnt).filterMap fun j =>
      validateAddress { env.addrCand i j with customer_id := c.customer_id }
    let loginRows :=
      if env.doLogin i then
        match loginValidOpt { env.loginCand i with
                                customer_id := c.customer_id,
                                lastlogin := some (env.lastloginStr i) } with
        | some la => [Row.login la]
        | none => []
      else []
    let rest' := addressStage env (i + 1) rest
    (as_ ++ rest'.1, as_.map Row.address ++ loginRows ++ rest'.2)

/-- Stage 4: `for _ in range(num_restaurants)` unique restaurants. -/
def restaurantsLoop (env : BatchEnv) : ℕ → ℕ → Registry → List Restaurant × Registry
  | _, 0, s => ([], s)
  | i, k + 1, s =>
    match (makeRestaurantUnique (env.restCand i) s).1 with
    | some r =>
      let rest := restaurantsLoop env (i + 1) k (makeRestaurantUnique (env.restCand i) s).2
      (r :: rest.1, rest.2)
    | none => restaurantsLoop env (i + 1) k (makeRestaurantUnique (env.restCand i) s).2

/-- The hard-coded fallback menu item for a restaurant with no validated
menu items (`price` is the dict's `"100.00"`). -/
def mkFallback (rid mid now : PyStr) : Menu :=
  { menu_id := mid
    restaurant_id := rid
    itemname := pys "Basic Item"
    description := some (pys "auto-created")
    price := 100
    activeflag := some (pys "Y")
    created_date := now }

/-- The `for _ in range(randint(3, 6))` menu generation loop for one
restaurant: the list of accepted items (rows are these items in order)
and the updated registry. -/
def menuGenLoop (rid : PyStr) (gen : ℕ → ℕ → Menu) :
    ℕ → ℕ → Registry → List Menu × Registry
  | 0, _, s => ([], s)
  | k + 1, j, s =>
    match (makeMenuUnique rid (gen j) s).1 with
    | some m =>
      let rest := menuGenLoop rid gen k (j + 1) (makeMenuUnique rid (gen j) s).2
      (m :: rest.1, rest.2)
    | none => menuGenLoop rid gen k (j + 1) (makeMenuUnique rid (gen j) s).2

/-- Menu handling for one restaurant: run the generation loop; if nothing
validated, append the fallback item and register its key
(`existing_menu_keys.add((rid, "basic item"))`). -/
def menusForRestaurant (rid : PyStr) (cnt : ℕ) (gen : ℕ → ℕ → Menu)
    (mid now : PyStr) (s : Registry) : List Menu × Registry :=
  let gl := menuGenLoop rid gen cnt 0 s
  if gl.1.isEmpty then
    let fb := mkFallback rid mid now
    ([fb], { gl.2 with menuKeys := (fb.restaurant_id, pyLower (pyStrip fb.itemname)) :: gl.2.menuKeys })
  else gl

/-- Stage 5: per restaurant, run the menu loop (with fallback) and record
the restaurant's menu list under its id.  The association list built here
keeps later-processed restaurants in front for lookup, matching dict
overwrite semantics. -/
def menusStage (env : BatchEnv) :
    ℕ → List Restaurant → Registry →
    List (PyStr × List Menu) × List Row × Registry
  | _, [], s => ([], [], s)
  | i, r :: rest, s =>
    let mfr := menusForRestaurant r.restaurant_id
      (pyRandint 3 6 (env.nMenuSeed i)) (env.menuCand i)
      (env.fallbackId i) (env.fallbackNow i) s
    let ms := menusStage env (i + 1) rest mfr.2
    (ms.1 ++ [(r.restaurant_id, mfr.1)], mfr.1.map Row.menu ++ ms.2.1, ms.2.2)

/-- `menus.get(rid, [])`: association lookup with dict-overwrite
semantics (later entries are preferred, matching `menusStage`'s append
order where later-processed restaurants come first in lookup priority). -/
def assocFind : List (PyStr × List Menu) → PyStr → Option (List Menu)
  | [], _ => none
  | (k', v) :: t, k => if k' = k then some v else assocFind t k

/-- Stage 6: `for _ in range(num_agents)` unique delivery agents. -/
def agentsLoop (env : BatchEnv) : ℕ → ℕ → Registry → List DeliveryAgent × Registry
  | _, 0, s => ([], s)
  | i, k + 1, s =>
    match (makeDeliveryAgentUnique (env.agentCand i) s).1 with
    | some a =>
      let rest := agentsLoop env (i + 1) k (makeDeliveryAgentUnique (env.agentCand i) s).2
      (a :: rest.1, rest.2)
    | none => agentsLoop env (i + 1) k (makeDeliveryAgentUnique (env.agentCand i) s).2

/-- The delivery step of one order iteration: with probability 0.6 and a
nonempty agent pool, pick an address of the customer (or any address),
pick an agent, and append the delivery if it validates.  Returns the
rows to append after the order and its items. -/
def deliveryStep (env : BatchEnv) (t : ℕ) (addresses : List Address)
    (agents : List DeliveryAgent) (cust : Customer) (o : Order) : List Row :=
  if env.doDeliv t && !agents.isEmpty then
    let custAddresses := addresses.filter fun a => a.customer_id = cust.customer_id
    let addressId : Option PyStr :=
      if !custAddresses.isEmpty then
        (pyChoice custAddresses (env.pickASeed t)).map Address.address_id
      else if !addresses.isEmpty then
        (pyChoice addresses (env.pickASeed t)).map Address.address_id
      else none
    match addressId with
    | some aid =>
      match pyChoice agents (env.pickAgSeed t) with
      | some agent =>
        match makeDelivery (env.delivCand t) o.order_id agent.deliveryagent_id aid with
        | some dr => [Row.delivery dr]
        | none => []
      | none => []
    | none => []
  else []

/-- Stage 7: `while len(rows) < batch_size and attempts < batch_size * 10`.
`prevLen` is the number of rows the earlier stages produced; `acc` holds
the rows this loop has appended.  `none` models the `IndexError` of
`random.choice` on an empty customer or restaurant pool. -/
def ordersLoop (env : BatchEnv) (n : ℕ) (customers : List Customer)
    (restaurants : List Restaurant) (menus : List (PyStr × List Menu))
    (addresses : List Address) (agents : List DeliveryAgent) (prevLen : ℕ) :
    ℕ → ℕ → List Row → Option (List Row)
  | 0, _, acc => some acc
  | b + 1, t, acc =>
    if prevLen + acc.length < n then
      match pyChoice customers (env.pickCSeed t), pyChoice restaurants (env.pickRSeed t) with
      | some cust, some rest =>
        let restMenus := (assocFind menus rest.restaurant_id).getD []
        let mo := makeOrderWithItems cust.customer_id rest.restaurant_id restMenus
          (env.kSeed t) (env.sampleSeed t) (env.qtySeed t) (env.surcharge t)
          (env.orderIds t) (env.itemIds t) (env.orderDateStr t)
          (env.orderCreatedStr t) (env.orderStatus t) (env.payMethod t)
        match mo.1 with
        | some o =>
          ordersLoop env n customers restaurants menus addresses agents prevLen b (t + 1)
            (acc ++ [Row.order o] ++ mo.2.map Row.orderitem ++
              deliveryStep env t addresses agents cust o)
        | none =>
          ordersLoop env n customers restaurants menus addresses agents prevLen b (t + 1) acc
      | _, _ => none
    else some acc

/-- The pools and rows `build_batch` assembles before the final
truncation. -/
structure BatchParts where
  customers : List Customer
  addresses : List Address
  restaurants : List Restaurant
  menus : List (PyStr × List Menu)
  agents : List DeliveryAgent
  rows : List Row
deriving Repr

/-- `build_batch(batch_size)` up to (not including) the final truncation,
starting from registry `s0` (`none` models an `IndexError` escaping the
order loop). -/
def buildBatchParts (env : BatchEnv) (n : ℕ) (s0 : Registry) : Option BatchParts :=
  let numCustomers := max 10 (n / 20)
  let numRestaurants := max 5 (n / 50)
  let numAgents := max 5 (n / 50)
  let cl := customersLoop env numCustomers (numCustomers * 10) 0 [] s0
  let ast := addressStage env 0 cl.1
  let rl := restaurantsLoop env 0 numRestaurants cl.2
  let ms := menusStage env 0 rl.1 rl.2
  let al := agentsLoop env 0 numAgents ms.2.2
  let prevRows := cl.1.map Row.customer ++ ast.2 ++
    rl.1.map Row.restaurant ++ ms.2.1 ++ al.1.map Row.agent
  match ordersLoop env n cl.1 rl.1 ms.1 ast.1 al.1
      prevRows.length (n * 10) 0 [] with
  | none => none
  | some orderRows =>
    some { customers := cl.1
           addresses := ast.1
           restaurants := rl.1
           menus := ms.1
           agents := al.1
           rows := prevRows ++ orderRows }

/-- The assembled record collection of `build_batch`. -/
def buildBatchRows (env : BatchEnv) (n : ℕ) (s0 : Registry) : Option (List Row) :=
  (buildBatchParts env n s0).map BatchParts.rows

/-- `build_batch`: `if len(rows) > batch_size: return rows[:batch_size]`
(no appended row is `None`, so the final comprehension filter keeps
everything). -/
def buildBatch (env : BatchEnv) (n : ℕ) (s0 : Registry) : Option (List Row) :=
  (buildBatchRows env n s0).map fun rows =>
    if n < rows.length then rows.take n else rows

/-!
## Helper lemmas: `str.strip` and half-up rounding
-/

theorem dropWhile_dropWhile_eq (p : Char → Bool) (l : List Char) :
    (l.dropWhile p).dropWhile p = l.dropWhile p := by
  induction l with
  | nil => rfl
  | cons a t ih =>
    by_cases h : p a
    · simp [List.dropWhile_cons, h, ih]
    · simp [List.dropWhile_cons, h]

theorem head?_dropWhile_not (p : Char → Bool) (l : List Char) {c : Char}
    (h : (l.dropWhile p).head? = some c) : p c = false := by
  induction l with
  | nil => simp [List.dropWhile] at h
  | cons a t ih =>
    rw [List.dropWhile_cons] at h
    split at h
    · exact ih h
    · simp_all

theorem dropWhile_eq_self_of_head? (p : Char → Bool) (l : List Char)
    (h : ∀ c, l.head? = some c → p c = false) : l.dropWhile p = l := by
  cases l with
  | nil => rfl
  | cons a t => rw [List.dropWhile_cons, if_neg (by simp [h a rfl])]

theorem pyStrip_of_clean_head (m : PyStr)
    (hm : ∀ c, m.head? = some c → isPySpace c = false) :
    pyStrip ((m.reverse.dropWhile isPySpace).reverse) =
      (m.reverse.dropWhile isPySpace).reverse := by
  have hxof : m = (m.reverse.dropWhile isPySpace).reverse ++
      (m.reverse.takeWhile isPySpace).reverse := by
    conv_lhs => rw [← List.reverse_reverse m,
      ← List.takeWhile_append_dropWhile (p := isPySpace) (l := m.reverse)]
    rw [List.reverse_append]
  have hA : ((m.reverse.dropWhile isPySpace).reverse).dropWhile isPySpace =
      (m.reverse.dropWhile isPySpace).reverse := by
    apply dropWhile_eq_self_of_head?
    intro c hc
    apply hm
    rw [hxof]
    cases hx : (m.reverse.dropWhile isPySpace).reverse with
    | nil => rw [hx] at hc; simp at hc
    | cons a t' =>
      rw [hx] at hc
      simp only [List.head?_cons, Option.some_inj] at hc
      simp [hc]
  unfold pyStrip
  rw [hA, List.reverse_reverse, dropWhile_dropWhile_eq]

theorem pyStrip_idem (l : PyStr) : pyStrip (pyStrip l) = pyStrip l :=
  pyStrip_of_clean_head (l.dropWhile isPySpace)
    (fun _ hc => head?_dropWhile_not isPySpace l hc)

theorem pyStrip_subset (l : PyStr) : pyStrip l ⊆ l := by
  intro c hc
  unfold pyStrip at hc
  rw [List.mem_reverse] at hc
  have h1 := (List.dropWhile_sublist (l := (l.dropWhile isPySpace).reverse)
    (p := isPySpace)).subset hc
  rw [List.mem_reverse] at h1
  exact (List.dropWhile_sublist (l := l) (p := isPySpace)).subset h1

theorem floor_intCast_add_half (z : ℤ) : (⌊(z : ℚ) + 1/2⌋ : ℤ) = z := by
  rw [add_comm, Int.floor_add_int]
  norm_num [Int.floor_eq_zero_iff]

theorem roundHalfUp2_intCast_div (z : ℤ) :
    roundHalfUp2 ((z : ℚ) / 100) = (z : ℚ) / 100 := by
  unfold roundHalfUp2
  by_cases h : (0 : ℚ) ≤ (z : ℚ) / 100
  · rw [if_pos h, div_mul_cancel₀ _ (by norm_num : (100 : ℚ) ≠ 0),
      floor_intCast_add_half]
  · rw [if_neg h]
    have h2 : -((z : ℚ) / 100) * 100 = ((-z : ℤ) : ℚ) := by push_cast; ring
    rw [h2, floor_intCast_add_half]
    push_cast
    ring

theorem roundHalfUp2_exists_int (q : ℚ) :
    ∃ z : ℤ, roundHalfUp2 q = (z : ℚ) / 100 := by
  unfold roundHalfUp2
  split
  · exact ⟨_, rfl⟩
  · exact ⟨-⌊-q * 100 + 1/2⌋, by push_cast; ring⟩

theorem roundHalfUp2_idem (q : ℚ) :
    roundHalfUp2 (roundHalfUp2 q) = roundHalfUp2 q := by
  obtain ⟨z, hz⟩ := roundHalfUp2_exists_int q
  rw [hz, roundHalfUp2_intCast_div]

theorem sum_cents (l : List ℚ) (h : ∀ x ∈ l, ∃ z : ℤ, x = (z : ℚ) / 100) :
    ∃ z : ℤ, l.sum = (z : ℚ) / 100 := by
  induction l with
  | nil => exact ⟨0, by simp⟩
  | cons a t ih =>
    obtain ⟨za, hza⟩ := h a (List.mem_cons_self a t)
    obtain ⟨zt, hzt⟩ := ih (fun x hx => h x (List.mem_cons_of_mem a hx))
    exact ⟨za + zt, by rw [List.sum_cons, hza, hzt]; push_cast; ring⟩

/-!
## C1: the OrderItem cross-field subtotal check
-/

/-- An order-item candidate whose subtotal (2) exceeds
`expected = round_half_up(price * quantity, 2) = 1`. -/
def cexOrderItem : OrderItem :=
  { orderitem_id := pys "oi-1"
    order_id := pys "ord-1"
    menu_id := pys "menu-1"
    quantity := 1
    price := 1
    subtotal := 2 }

/-- C1, counterexample: a candidate with `subtotal > expected` is
*accepted* by `OrderItemModel` validation — `check_subtotal` raises only
when `subtotal != expected and subtotal < expected - 0.01`, so a subtotal
strictly above the expected value never triggers the raise.  This refutes
the claim that every candidate with `subtotal > expected` is rejected. -/
theorem c1_subtotal_counterexample :
    (validateOrderItem cexOrderItem).isSome = true ∧
    roundHalfUp2 (roundHalfUp2 cexOrderItem.price * (cexOrderItem.quantity : ℚ)) <
      roundHalfUp2 cexOrderItem.subtotal := by
  constructor
  · with_unfolding_all decide
  · with_unfolding_all decide

/-- C1, amended: `OrderItemModel` validation accepts a candidate iff its
quantity is positive, its quantized price and subtotal are nonnegative,
and the quantized subtotal is at least `expected - 0.01` where
`expected = round_half_up(quantized price × quantity, 2)`; equivalently
it rejects exactly the candidates failing a field check or with
`subtotal < expected - 0.01`, and accepts every `subtotal > expected`. -/
theorem c1_subtotal_amended (it : OrderItem) :
    (validateOrderItem it).isSome = true ↔
      (0 < it.quantity ∧ 0 ≤ roundHalfUp2 it.price ∧ 0 ≤ roundHalfUp2 it.subtotal ∧
       roundHalfUp2 (roundHalfUp2 it.price * (it.quantity : ℚ)) - 1/100 ≤
         roundHalfUp2 it.subtotal) := by
  unfold validateOrderItem
  dsimp only
  split
  next h =>
    simp only [Option.isSome_some]
    refine iff_of_true trivial ?_
    simp only [Bool.and_eq_true, decide_eq_true_eq, Bool.not_eq_true'] at h
    obtain ⟨⟨⟨hq, hp⟩, hst⟩, hlast⟩ := h
    refine ⟨hq, hp, hst, ?_⟩
    rw [Bool.and_eq_false_iff] at hlast
    rcases hlast with h' | h'
    · rw [decide_eq_false_iff_not] at h'
      push_neg at h'
      rw [h']
      linarith
    · rw [decide_eq_false_iff_not] at h'
      linarith [not_lt.mp h']
  next h =>
    simp only [Option.isSome_none]
    refine iff_of_false (by simp) ?_
    rintro ⟨hq, hp, hst, hle⟩
    apply h
    simp only [Bool.and_eq_true, decide_eq_true_eq, Bool.not_eq_true']
    refine ⟨⟨⟨hq, hp⟩, hst⟩, ?_⟩
    rw [Bool.and_eq_false_iff]
    right
    rw [decide_eq_false_iff_not]
    linarith

/-!
## C3: a null `lastlogin` crashes the validation layer
-/

/-- A login-audit candidate with a null `lastlogin`, a value its own model
declares legal (`lastlogin: Optional[str]`). -/
def cexLoginAudit : LoginAudit :=
  { login_id := pys "lg-1"
    customer_id := pys "c-1"
    logintype := none
    deviceinterface := none
    mobiledevicename := none
    webinterface := none
    lastlogin := none }

/-- A customer candidate whose email contains no `'@'` at all but whose
mobile and timestamps are valid. -/
def cexCustomer : Customer :=
  { customer_id := pys "c-1"
    name := pys "Ann"
    mobile := pys "9876543210"
    email := pys "no-at-sign"
    loginbyusing := none
    gender := none
    dob := none
    preferences := none
    created_date := pys "2024-01-02T03:04:05+00:00" }

/-- C4, counterexample: `CustomerModel` has no validator on `email`, so a
candidate whose email contains zero `'@'` characters is accepted — the
claim that validation rejects every candidate without exactly one `'@'`
is false. -/
theorem c4_email_counterexample :
    validateCustomer cexCustomer = some cexCustomer ∧
    cexCustomer.email.count '@' = 0 := by
  exact ⟨by decide, by decide⟩

/-- The email construction of `make_customer_candidate`:
`f"{name.lower().strip()}{randint}@{domain}.com"`. -/
def mkCustomerEmail (name num domain : PyStr) : PyStr :=
  pyStrip (pyLower name) ++ num ++ '@' :: (domain ++ pys ".com")

/-- C4, amended: validation never inspects the email (accepted records
carry the candidate's email unchanged), and the candidate factory builds
emails with exactly one `'@'` whenever the lowered name, the numeric
suffix and the domain contain none — which is why accepted records have
exactly one `'@'` in practice despite the absence of a validator. -/
theorem c4_email_amended :
    (∀ c : Customer, (validateCustomer c).all (fun r => r.email == c.email) = true) ∧
    (∀ name num domain : PyStr, '@' ∉ pyLower name → '@' ∉ num → '@' ∉ domain →
      (mkCustomerEmail name num domain).count '@' = 1) := by
  constructor
  · intro c
    unfold validateCustomer
    split
    · simp
    · rfl
  · intro name num domain hname hnum hdomain
    unfold mkCustomerEmail
    rw [List.count_append, List.count_append, List.count_cons, List.count_append]
    have h1 : (pyStrip (pyLower name)).count '@' = 0 :=
      List.count_eq_zero.mpr (fun h => hname (pyStrip_subset _ h))
    have h2 : num.count '@' = 0 := List.count_eq_zero.mpr hnum
    have h3 : domain.count '@' = 0 := List.count_eq_zero.mpr hdomain
    have h4 : (pys ".com").count '@' = 0 := by decide
    simp [h1, h2, h3, h4]

/-!
## C5: the mobile/phone format check
-/

/-- The spec's property, stated from its words: `v` matches
`^[6-9]\d{9}$` — exactly 10 characters, all decimal digits, the first in
`{6,7,8,9}`. -/
def matchesMobileRegex (v : PyStr) : Prop :=
  v.length = 10 ∧
  (∃ c rest, v = c :: rest ∧ (c = '6' ∨ c = '7' ∨ c = '8' ∨ c = '9')) ∧
  ∀ c ∈ v, c.isDigit = true

/-- A 10-character string accepted by `validate_mobile` that is not
matched by `^[6-9]\d{9}$`: the superscript `'²'` has Unicode
Numeric_Type Digit, so `str.isdigit()` is true of it, but it is not a
decimal digit and `\d` does not match it. -/
def cexMobile : PyStr := pys "6²²²²²²²²²"

/-- C5, counterexample: the shared mobile/phone check accepts
`"6²²²²²²²²²"` (length 10, first character `'6'`, `isdigit()` true of
every character), which does not match `^[6-9]\d{9}$` — refuting the
claim's only-if direction. -/
theorem c5_mobile_counterexample :
    mobileCheck cexMobile = true ∧ ¬matchesMobileRegex cexMobile := by
  constructor
  · decide
  · rintro ⟨-, -, hdig⟩
    have h := hdig '²' (by decide)
    exact absurd h (by decide)

/-- The acceptance condition of `validate_mobile`, stated in the spec's
shape but with Python's `str.isdigit()` character class: exactly 10
characters, the first in `{6,7,8,9}`, every character `isdigit()`-true. -/
def matchesMobilePyDigit (v : PyStr) : Prop :=
  v.length = 10 ∧
  (∃ c rest, v = c :: rest ∧ (c = '6' ∨ c = '7' ∨ c = '8' ∨ c = '9')) ∧
  ∀ c ∈ v, pyIsdigitChar c = true

/-- C5, amended: the shared mobile/phone validator (`validate_mobile` on
`CustomerModel` and `DeliveryAgentModel` is the same check) accepts a
string iff it has exactly 10 characters, the first in `{6,7,8,9}` and all
of them `str.isdigit()`-true — a strictly weaker condition than matching
`^[6-9]\d{9}$`: every string matching the regex is accepted, but strings
with non-decimal `isdigit()` characters are accepted without matching it.
Every accepted customer/agent record still carries a mobile/phone
satisfying the check. -/
theorem c5_mobile_amended :
    (∀ v : PyStr, mobileCheck v = true ↔ matchesMobilePyDigit v) ∧
    (∀ v : PyStr, matchesMobileRegex v → mobileCheck v = true) ∧
    (∀ c : Customer, (validateCustomer c).all (fun r => mobileCheck r.mobile) = true) ∧
    (∀ a : DeliveryAgent, (validateDeliveryAgent a).all (fun r => mobileCheck r.phone) = true) := by
  have hiff : ∀ v : PyStr, mobileCheck v = true ↔ matchesMobilePyDigit v := by
    intro v
    cases v with
    | nil =>
      simp only [mobileCheck, matchesMobilePyDigit]
      constructor
      · intro h; cases h
      · rintro ⟨h, -, -⟩; simp at h
    | cons c t =>
      simp only [mobileCheck, matchesMobilePyDigit, Bool.and_eq_true, beq_iff_eq,
        Bool.or_eq_true, pyIsdigit, List.isEmpty_cons, Bool.not_false,
        Bool.true_and, List.all_eq_true]
      constructor
      · rintro ⟨⟨hlen, hfirst⟩, hdig⟩
        exact ⟨hlen, ⟨c, t, rfl, by tauto⟩, hdig⟩
      · rintro ⟨hlen, ⟨c', rest, heq, hfirst⟩, hdig⟩
        cases heq
        exact ⟨⟨hlen, by tauto⟩, hdig⟩
  refine ⟨hiff, ?_, ?_, ?_⟩
  · rintro v ⟨hlen, hfirst, hdig⟩
    refine (hiff v).mpr ⟨hlen, hfirst, ?_⟩
    intro ch hch
    have h := hdig ch hch
    simp [pyIsdigitChar, h]
  · intro c
    unfold validateCustomer
    split
    next h =>
      simp only [Bool.and_eq_true] at h
      simp [h.1.1]
    next => rfl
  · intro a
    unfold validateDeliveryAgent
    split
    next h =>
      simp only [Bool.and_eq_true] at h
      simp [h.1.1]
    next => rfl

/-- C5, exercised: a plain all-ASCII mobile matching `^[6-9]\d{9}$` is
accepted. -/
theorem c5_mobile_amended_witness : mobileCheck (pys "9123456789") = true :=
  c5_mobile_amended.2.1 (pys "9123456789")
    ⟨by decide, ⟨'9', pys "123456789", rfl, by tauto⟩, by decide⟩

/-!
## The retry loop: budget and state lemmas
-/

theorem uniqueLoop_none_state {α β : Type} (gen : ℕ → α) (collide : α → Bool)
    (validate : α → Option β) (register : β → Registry) (s : Registry)
    (i f : ℕ)
    (h : (uniqueLoop gen collide validate register s i f).1 = none) :
    (uniqueLoop gen collide validate register s i f).2 = s := by
  induction f generalizing i with
  | zero => rfl
  | succ f ih =>
    rcases hcol : collide (gen i) with - | -
    · rcases hv : validate (gen i) with - | v
      · simp only [uniqueLoop, hcol, Bool.false_eq_true, if_false, hv] at h ⊢
        exact ih _ h
      · simp [uniqueLoop, hcol, hv] at h
    · simp only [uniqueLoop, hcol, if_true] at h ⊢
      exact ih _ h

theorem uniqueLoop_none_iff {α β : Type} (gen : ℕ → α) (collide : α → Bool)
    (validate : α → Option β) (register : β → Registry) (s : Registry)
    (i f : ℕ) :
    (uniqueLoop gen collide validate register s i f).1 = none ↔
      ∀ j, i ≤ j → j < i + f →
        (collide (gen j) || (validate (gen j)).isNone) = true := by
  induction f generalizing i with
  | zero =>
    simp only [uniqueLoop]
    refine iff_of_true trivial ?_
    intro j h1 h2
    omega
  | succ f ih =>
    rcases hcol : collide (gen i) with - | -
    · rcases hv : validate (gen i) with - | v
      · simp only [uniqueLoop, hcol, Bool.false_eq_true, if_false, hv]
        rw [ih]
        constructor
        · intro hall j h1 h2
          rcases Nat.eq_or_lt_of_le h1 with rfl | h1'
          · simp [hcol, hv]
          · exact hall j h1' (by omega)
        · intro hall j h1 h2
          exact hall j (by omega) (by omega)
      · simp only [uniqueLoop, hcol, Bool.false_eq_true, if_false, hv]
        refine iff_of_false (by simp) ?_
        intro hall
        have := hall i (le_refl i) (by omega)
        simp [hcol, hv] at this
    · simp only [uniqueLoop, hcol, if_true]
      rw [ih]
      constructor
      · intro hall j h1 h2
        rcases Nat.eq_or_lt_of_le h1 with rfl | h1'
        · simp [hcol]
        · exact hall j h1' (by omega)
      · intro hall j h1 h2
        exact hall j (by omega) (by omega)

theorem uniqueLoop_some {α β : Type} (gen : ℕ → α) (collide : α → Bool)
    (validate : α → Option β) (register : β → Registry) (s : Registry)
    (i f : ℕ) (b : β)
    (h : (uniqueLoop gen collide validate register s i f).1 = some b) :
    ∃ j, collide (gen j) = false ∧ validate (gen j) = some b ∧
      (uniqueLoop gen collide validate register s i f).2 = register b := by
  induction f generalizing i with
  | zero => simp [uniqueLoop] at h
  | succ f ih =>
    rcases hcol : collide (gen i) with - | -
    · rcases hv : validate (gen i) with - | v
      · simp only [uniqueLoop, hcol, Bool.false_eq_true, if_false, hv] at h ⊢
        exact ih _ h
      · simp only [uniqueLoop, hcol, Bool.false_eq_true, if_false, hv,
          Option.some_inj] at h ⊢
        exact ⟨i, hcol, by rw [hv, h], by rw [h]⟩
    · simp only [uniqueLoop, hcol, if_true] at h ⊢
      exact ih _ h

/-!
## C6: the retry budget of the uniqueness-constrained factories
-/

/-- One failed attempt of `make_customer_unique`: a key collision against
registry `s` or a validation failure. -/
def custAttemptFails (gen : ℕ → Customer) (s : Registry) (j : ℕ) : Bool :=
  decide ((gen j).mobile ∈ s.mobiles ∨ pyLower (gen j).email ∈ s.emails ∨
    (pyLower (pyStrip (gen j).name), (gen j).dob) ∈ s.nameDobs) ||
  (validateCustomer (gen j)).isNone

/-- One failed attempt of `make_restaurant_unique`. -/
def restAttemptFails (gen : ℕ → Restaurant) (s : Registry) (j : ℕ) : Bool :=
  decide ((pyLower (pyStrip (gen j).name), (gen j).location_id) ∈ s.restKeys) ||
  (validateRestaurant (gen j)).isNone

/-- One failed attempt of `make_menu_unique`. -/
def menuAttemptFails (rid : PyStr) (gen : ℕ → Menu) (s : Registry) (j : ℕ) : Bool :=
  decide ((rid, pyLower (pyStrip ({ gen j with restaurant_id := rid } : Menu).itemname)) ∈ s.menuKeys) ||
  (validateMenu { gen j with restaurant_id := rid }).isNone

/-- One failed attempt of `make_deliveryagent_unique`. -/
def agentAttemptFails (gen : ℕ → DeliveryAgent) (s : Registry) (j : ℕ) : Bool :=
  decide ((gen j).phone ∈ s.agentPhones) ||
  (validateDeliveryAgent (gen j)).isNone

/-- C6: each uniqueness-constrained factory returns the null record iff
each of its `MAX_UNIQUENESS_ATTEMPTS = 20` attempts fails (collision or
validation failure) — so it tries at most 20 candidates — and on the null
return the registry is exactly the entry registry: no key is registered
without a record being returned.  No exception is raised: the factories
are total functions into `Option`. -/
theorem c6_retry_budget (gC : ℕ → Customer) (gR : ℕ → Restaurant)
    (gM : ℕ → Menu) (gA : ℕ → DeliveryAgent) (rid : PyStr) (s : Registry) :
    (((makeCustomerUnique gC s).1 = none ↔
        ∀ j, j < MAX_UNIQUENESS_ATTEMPTS → custAttemptFails gC s j = true) ∧
      ((makeCustomerUnique gC s).1 = none → (makeCustomerUnique gC s).2 = s)) ∧
    (((makeRestaurantUnique gR s).1 = none ↔
        ∀ j, j < MAX_UNIQUENESS_ATTEMPTS → restAttemptFails gR s j = true) ∧
      ((makeRestaurantUnique gR s).1 = none → (makeRestaurantUnique gR s).2 = s)) ∧
    (((makeMenuUnique rid gM s).1 = none ↔
        ∀ j, j < MAX_UNIQUENESS_ATTEMPTS → menuAttemptFails rid gM s j = true) ∧
      ((makeMenuUnique rid gM s).1 = none → (makeMenuUnique rid gM s).2 = s)) ∧
    (((makeDeliveryAgentUnique gA s).1 = none ↔
        ∀ j, j < MAX_UNIQUENESS_ATTEMPTS → agentAttemptFails gA s j = true) ∧
      ((makeDeliveryAgentUnique gA s).1 = none → (makeDeliveryAgentUnique gA s).2 = s)) := by
  refine ⟨⟨?_, ?_⟩, ⟨?_, ?_⟩, ⟨?_, ?_⟩, ⟨?_, ?_⟩⟩
  · rw [makeCustomerUnique, uniqueLoop_none_iff]
    exact ⟨fun h j hj => h j (Nat.zero_le j) (by omega),
           fun h j _ hj => h j (by omega)⟩
  · exact uniqueLoop_none_state _ _ _ _ _ _ _
  · rw [makeRestaurantUnique, uniqueLoop_none_iff]
    exact ⟨fun h j hj => h j (Nat.zero_le j) (by omega),
           fun h j _ hj => h j (by omega)⟩
  · exact uniqueLoop_none_state _ _ _ _ _ _ _
  · rw [makeMenuUnique, uniqueLoop_none_iff]
    exact ⟨fun h j hj => h j (Nat.zero_le j) (by omega),
           fun h j _ hj => h j (by omega)⟩
  · exact uniqueLoop_none_state _ _ _ _ _ _ _
  · rw [makeDeliveryAgentUnique, uniqueLoop_none_iff]
    exact ⟨fun h j hj => h j (Nat.zero_le j) (by omega),
           fun h j _ hj => h j (by omega)⟩
  · exact uniqueLoop_none_state _ _ _ _ _ _ _

/-- An always-invalid customer candidate (empty mobile). -/
def failCustomerCand : Customer :=
  { cexCustomer with mobile := [] }

/-- An always-invalid restaurant candidate (blank name). -/
def failRestaurantCand : Restaurant :=
  { restaurant_id := pys "r-1", name := pys "  ", cuisine_type := none,
    pricing_for_2 := 100, location_id := some (pys "loc-1"),
    created_date := pys "2024-01-02" }

/-- An always-invalid menu candidate (blank item name). -/
def failMenuCand : Menu :=
  { menu_id := pys "m-1", restaurant_id := pys "r-1", itemname := pys " ",
    description := none, price := 100, activeflag := none,
    created_date := pys "2024-01-02" }

/-- An always-invalid agent candidate (empty phone). -/
def failAgentCand : DeliveryAgent :=
  { deliveryagent_id := pys "a-1", name := pys "Bo", phone := [],
    vehicle_type := none, location_id := none, status := none,
    rating := none, created_date := pys "2024-01-02" }

/-- C6, exercised at concrete always-failing candidate streams: every
factory exhausts its 20 attempts, returns the null record, and leaves the
(empty) registry untouched. -/
theorem c6_retry_budget_exercised :
    ((makeCustomerUnique (fun _ => failCustomerCand) Registry.empty).1 = none ∧
      (makeCustomerUnique (fun _ => failCustomerCand) Registry.empty).2 = Registry.empty) ∧
    ((makeRestaurantUnique (fun _ => failRestaurantCand) Registry.empty).1 = none ∧
      (makeRestaurantUnique (fun _ => failRestaurantCand) Registry.empty).2 = Registry.empty) ∧
    ((makeMenuUnique (pys "r-1") (fun _ => failMenuCand) Registry.empty).1 = none ∧
      (makeMenuUnique (pys "r-1") (fun _ => failMenuCand) Registry.empty).2 = Registry.empty) ∧
    ((makeDeliveryAgentUnique (fun _ => failAgentCand) Registry.empty).1 = none ∧
      (makeDeliveryAgentUnique (fun _ => failAgentCand) Registry.empty).2 = Registry.empty) := by
  have h := c6_retry_budget (fun _ => failCustomerCand) (fun _ => failRestaurantCand)
    (fun _ => failMenuCand) (fun _ => failAgentCand) (pys "r-1") Registry.empty
  have hC : (makeCustomerUnique (fun _ => failCustomerCand) Registry.empty).1 = none :=
    h.1.1.mpr (by with_unfolding_all decide)
  have hR : (makeRestaurantUnique (fun _ => failRestaurantCand) Registry.empty).1 = none :=
    h.2.1.1.mpr (by with_unfolding_all decide)
  have hM : (makeMenuUnique (pys "r-1") (fun _ => failMenuCand) Registry.empty).1 = none :=
    h.2.2.1.1.mpr (by with_unfolding_all decide)
  have hA : (makeDeliveryAgentUnique (fun _ => failAgentCand) Registry.empty).1 = none :=
    h.2.2.2.1.mpr (by with_unfolding_all decide)
  exact ⟨⟨hC, h.1.2 hC⟩, ⟨hR, h.2.1.2 hR⟩, ⟨hM, h.2.2.1.2 hM⟩, ⟨hA, h.2.2.2.2 hA⟩⟩

/-!
## C2: natural keys never repeat across a registry lifetime
-/

theorem validateCustomer_some {c v : Customer} (h : validateCustomer c = some v) :
    v = c := by
  unfold validateCustomer at h
  split at h
  · exact (Option.some_inj.mp h).symm
  · exact absurd h (by simp)

theorem validateRestaurant_some {r v : Restaurant}
    (h : validateRestaurant r = some v) :
    v = { r with name := pyStrip r.name,
                 pricing_for_2 := roundHalfUp2 r.pricing_for_2 } := by
  unfold validateRestaurant at h
  dsimp only at h
  split at h
  · exact (Option.some_inj.mp h).symm
  · exact absurd h (by simp)

theorem validateMenu_some {m v : Menu} (h : validateMenu m = some v) :
    v = { m with itemname := pyStrip m.itemname,
                 price := roundHalfUp2 m.price } := by
  unfold validateMenu at h
  dsimp only at h
  split at h
  · exact (Option.some_inj.mp h).symm
  · exact absurd h (by simp)

theorem validateDeliveryAgent_some {a v : DeliveryAgent}
    (h : validateDeliveryAgent a = some v) :
    v = { a with rating := a.rating.map roundHalfUp2 } := by
  unfold validateDeliveryAgent at h
  split at h
  · exact (Option.some_inj.mp h).symm
  · exact absurd h (by simp)

/-- A successful `make_customer_unique` call returns a record whose three
natural keys were absent from the entry registry and are exactly the keys
pushed onto the exit registry. -/
theorem makeCustomerUnique_keys (gen : ℕ → Customer) (s : Registry)
    (v : Customer) (h : (makeCustomerUnique gen s).1 = some v) :
    custMobileKey v ∉ s.mobiles ∧ custEmailKey v ∉ s.emails ∧
    custNameDobKey v ∉ s.nameDobs ∧
    (makeCustomerUnique gen s).2.mobiles = custMobileKey v :: s.mobiles ∧
    (makeCustomerUnique gen s).2.emails = custEmailKey v :: s.emails ∧
    (makeCustomerUnique gen s).2.nameDobs = custNameDobKey v :: s.nameDobs := by
  unfold makeCustomerUnique at h ⊢
  obtain ⟨j, hcol, hval, hreg⟩ := uniqueLoop_some _ _ _ _ _ _ _ _ h
  have hv := validateCustomer_some hval
  subst hv
  simp only [decide_eq_false_iff_not] at hcol
  push_neg at hcol
  exact ⟨hcol.1, hcol.2.1, hcol.2.2, by rw [hreg]; rfl, by rw [hreg]; rfl,
    by rw [hreg]; rfl⟩

/-- A successful `make_restaurant_unique` call: its
`(stripped lowered name, location)` key was absent on entry and heads the
exit registry (stripping is idempotent, so the key of the validated
record equals the key checked for the candidate). -/
theorem makeRestaurantUnique_keys (gen : ℕ → Restaurant) (s : Registry)
    (v : Restaurant) (h : (makeRestaurantUnique gen s).1 = some v) :
    restKey v ∉ s.restKeys ∧
    (makeRestaurantUnique gen s).2.restKeys = restKey v :: s.restKeys := by
  unfold makeRestaurantUnique at h ⊢
  obtain ⟨j, hcol, hval, hreg⟩ := uniqueLoop_some _ _ _ _ _ _ _ _ h
  have hv := validateRestaurant_some hval
  simp only [decide_eq_false_iff_not] at hcol
  have hkey : restKey v = (pyLower (pyStrip (gen j).name), (gen j).location_id) := by
    rw [hv]
    unfold restKey
    simp [pyStrip_idem]
  refine ⟨by rw [hkey]; exact hcol, ?_⟩
  rw [hreg]
  unfold restKey
  rfl

/-- A successful `make_menu_unique` call: its
`(restaurant_id, stripped lowered item name)` key was absent on entry and
heads the exit registry. -/
theorem makeMenuUnique_keys (rid : PyStr) (gen : ℕ → Menu) (s : Registry)
    (v : Menu) (h : (makeMenuUnique rid gen s).1 = some v) :
    menuKey v ∉ s.menuKeys ∧
    (makeMenuUnique rid gen s).2.menuKeys = menuKey v :: s.menuKeys := by
  unfold makeMenuUnique at h ⊢
  obtain ⟨j, hcol, hval, hreg⟩ := uniqueLoop_some _ _ _ _ _ _ _ _ h
  have hv := validateMenu_some hval
  simp only [decide_eq_false_iff_not] at hcol
  have hkey : menuKey v = (rid, pyLower (pyStrip ({ gen j with restaurant_id := rid } : Menu).itemname)) := by
    rw [hv]
    unfold menuKey
    simp [pyStrip_idem]
  refine ⟨by rw [hkey]; exact hcol, ?_⟩
  rw [hreg]
  unfold menuKey
  rfl

/-- A successful `make_deliveryagent_unique` call: its phone was absent on
entry and heads the exit registry. -/
theorem makeDeliveryAgentUnique_keys (gen : ℕ → DeliveryAgent) (s : Registry)
    (v : DeliveryAgent) (h : (makeDeliveryAgentUnique gen s).1 = some v) :
    agentKey v ∉ s.agentPhones ∧
    (makeDeliveryAgentUnique gen s).2.agentPhones = agentKey v :: s.agentPhones := by
  unfold makeDeliveryAgentUnique at h ⊢
  obtain ⟨j, hcol, hval, hreg⟩ := uniqueLoop_some _ _ _ _ _ _ _ _ h
  have hv := validateDeliveryAgent_some hval
  simp only [decide_eq_false_iff_not] at hcol
  have hkey : agentKey v = (gen j).phone := by rw [hv]; rfl
  refine ⟨by rw [hkey]; exact hcol, ?_⟩
  rw [hreg]
  rw [hv]
  rfl

/-- C2: two successful calls of the same uniqueness-constrained factory,
the second starting from any registry that contains the first call's exit
registry (e.g. after other factory calls extended it), return records
with distinct natural keys — no two accepted customers share mobile,
lowered email or (lowered stripped name, dob); no two accepted
restaurants share (name, location); no two accepted menu items share
(restaurant, item name); no two accepted agents share a phone. -/
theorem c2_natural_key_uniqueness
    (gC1 gC2 : ℕ → Customer) (gR1 gR2 : ℕ → Restaurant)
    (gM1 gM2 : ℕ → Menu) (gA1 gA2 : ℕ → DeliveryAgent) (rid1 rid2 : PyStr)
    (sC0 sCmid sR0 sRmid sM0 sMmid sA0 sAmid : Registry)
    (hC1 : (makeCustomerUnique gC1 sC0).1.isSome = true)
    (hCsub : Registry.Sub (makeCustomerUnique gC1 sC0).2 sCmid)
    (hC2 : (makeCustomerUnique gC2 sCmid).1.isSome = true)
    (hR1 : (makeRestaurantUnique gR1 sR0).1.isSome = true)
    (hRsub : Registry.Sub (makeRestaurantUnique gR1 sR0).2 sRmid)
    (hR2 : (makeRestaurantUnique gR2 sRmid).1.isSome = true)
    (hM1 : (makeMenuUnique rid1 gM1 sM0).1.isSome = true)
    (hMsub : Registry.Sub (makeMenuUnique rid1 gM1 sM0).2 sMmid)
    (hM2 : (makeMenuUnique rid2 gM2 sMmid).1.isSome = true)
    (hA1 : (makeDeliveryAgentUnique gA1 sA0).1.isSome = true)
    (hAsub : Registry.Sub (makeDeliveryAgentUnique gA1 sA0).2 sAmid)
    (hA2 : (makeDeliveryAgentUnique gA2 sAmid).1.isSome = true) :
    (custMobileKey ((makeCustomerUnique gC1 sC0).1.getD failCustomerCand) ≠
       custMobileKey ((makeCustomerUnique gC2 sCmid).1.getD failCustomerCand) ∧
     custEmailKey ((makeCustomerUnique gC1 sC0).1.getD failCustomerCand) ≠
       custEmailKey ((makeCustomerUnique gC2 sCmid).1.getD failCustomerCand) ∧
     custNameDobKey ((makeCustomerUnique gC1 sC0).1.getD failCustomerCand) ≠
       custNameDobKey ((makeCustomerUnique gC2 sCmid).1.getD failCustomerCand)) ∧
    restKey ((makeRestaurantUnique gR1 sR0).1.getD failRestaurantCand) ≠
      restKey ((makeRestaurantUnique gR2 sRmid).1.getD failRestaurantCand) ∧
    menuKey ((makeMenuUnique rid1 gM1 sM0).1.getD failMenuCand) ≠
      menuKey ((makeMenuUnique rid2 gM2 sMmid).1.getD failMenuCand) ∧
    agentKey ((makeDeliveryAgentUnique gA1 sA0).1.getD failAgentCand) ≠
      agentKey ((makeDeliveryAgentUnique gA2 sAmid).1.getD failAgentCand) := by
  obtain ⟨c1, hc1⟩ := Option.isSome_iff_exists.mp hC1
  obtain ⟨c2, hc2⟩ := Option.isSome_iff_exists.mp hC2
  obtain ⟨r1, hr1⟩ := Option.isSome_iff_exists.mp hR1
  obtain ⟨r2, hr2⟩ := Option.isSome_iff_exists.mp hR2
  obtain ⟨m1, hm1⟩ := Option.isSome_iff_exists.mp hM1
  obtain ⟨m2, hm2⟩ := Option.isSome_iff_exists.mp hM2
  obtain ⟨a1, ha1⟩ := Option.isSome_iff_exists.mp hA1
  obtain ⟨a2, ha2⟩ := Option.isSome_iff_exists.mp hA2
  obtain ⟨hcm1, hce1, hcd1, hcm1', hce1', hcd1'⟩ :=
    makeCustomerUnique_keys gC1 sC0 c1 hc1
  obtain ⟨hcm2, hce2, hcd2, -, -, -⟩ := makeCustomerUnique_keys gC2 sCmid c2 hc2
  obtain ⟨hrk1, hrk1'⟩ := makeRestaurantUnique_keys gR1 sR0 r1 hr1
  obtain ⟨hrk2, -⟩ := makeRestaurantUnique_keys gR2 sRmid r2 hr2
  obtain ⟨hmk1, hmk1'⟩ := makeMenuUnique_keys rid1 gM1 sM0 m1 hm1
  obtain ⟨hmk2, -⟩ := makeMenuUnique_keys rid2 gM2 sMmid m2 hm2
  obtain ⟨hak1, hak1'⟩ := makeDeliveryAgentUnique_keys gA1 sA0 a1 ha1
  obtain ⟨hak2, -⟩ := makeDeliveryAgentUnique_keys gA2 sAmid a2 ha2
  rw [hc1, hc2, hr1, hr2, hm1, hm2, ha1, ha2]
  simp only [Option.getD_some]
  refine ⟨⟨?_, ?_, ?_⟩, ?_, ?_, ?_⟩
  · intro heq
    apply hcm2
    rw [← heq]
    exact hCsub.1 (by rw [hcm1']; exact List.mem_cons_self _ _)
  · intro heq
    apply hce2
    rw [← heq]
    exact hCsub.2.1 (by rw [hce1']; exact List.mem_cons_self _ _)
  · intro heq
    apply hcd2
    rw [← heq]
    exact hCsub.2.2.1 (by rw [hcd1']; exact List.mem_cons_self _ _)
  · intro heq
    apply hrk2
    rw [← heq]
    exact hRsub.2.2.2.2.1 (by rw [hrk1']; exact List.mem_cons_self _ _)
  · intro heq
    apply hmk2
    rw [← heq]
    exact hMsub.2.2.2.2.2 (by rw [hmk1']; exact List.mem_cons_self _ _)
  · intro heq
    apply hak2
    rw [← heq]
    exact hAsub.2.2.2.1 (by rw [hak1']; exact List.mem_cons_self _ _)

/-- First witness customer candidate (valid, distinct keys from `wCust2`). -/
def wCust1 : Customer := cexCustomer

/-- Second witness customer candidate. -/
def wCust2 : Customer :=
  { cexCustomer with name := pys "Bob", mobile := pys "8876543210",
                     email := pys "bob@x.com" }

/-- Witness restaurant candidates. -/
def wRest1 : Restaurant :=
  { restaurant_id := pys "r-1", name := pys "Cafe One", cuisine_type := none,
    pricing_for_2 := 100, location_id := some (pys "L1"),
    created_date := pys "2024-01-02" }

def wRest2 : Restaurant := { wRest1 with restaurant_id := pys "r-2", name := pys "Cafe Two" }

/-- Witness menu candidates (same restaurant, distinct item names). -/
def wMenu1 : Menu :=
  { menu_id := pys "m-1", restaurant_id := pys "x", itemname := pys "Dosa",
    description := none, price := 50, activeflag := none,
    created_date := pys "2024-01-02" }

def wMenu2 : Menu := { wMenu1 with menu_id := pys "m-2", itemname := pys "Idli" }

/-- Witness agent candidates. -/
def wAgent1 : DeliveryAgent :=
  { deliveryagent_id := pys "a-1", name := pys "Kim", phone := pys "9000000001",
    vehicle_type := none, location_id := none, status := none, rating := none,
    created_date := pys "2024-01-02" }

def wAgent2 : DeliveryAgent :=
  { wAgent1 with deliveryagent_id := pys "a-2", phone := pys "9000000002" }

/-- Exit registry of the first witness customer call. -/
def wCustReg : Registry := (makeCustomerUnique (fun _ => wCust1) Registry.empty).2

/-- Exit registry of the first witness restaurant call. -/
def wRestReg : Registry := (makeRestaurantUnique (fun _ => wRest1) Registry.empty).2

/-- Exit registry of the first witness menu call. -/
def wMenuReg : Registry := (makeMenuUnique (pys "r-9") (fun _ => wMenu1) Registry.empty).2

/-- Exit registry of the first witness agent call. -/
def wAgentReg : Registry := (makeDeliveryAgentUnique (fun _ => wAgent1) Registry.empty).2

/-- C2, exercised: two concrete successful calls per factory, the second
starting from the first call's exit registry, return records with
distinct natural keys. -/
theorem c2_natural_key_uniqueness_witness :
    (custMobileKey ((makeCustomerUnique (fun _ => wCust1) Registry.empty).1.getD failCustomerCand) ≠
       custMobileKey ((makeCustomerUnique (fun _ => wCust2) wCustReg).1.getD failCustomerCand) ∧
     custEmailKey ((makeCustomerUnique (fun _ => wCust1) Registry.empty).1.getD failCustomerCand) ≠
       custEmailKey ((makeCustomerUnique (fun _ => wCust2) wCustReg).1.getD failCustomerCand) ∧
     custNameDobKey ((makeCustomerUnique (fun _ => wCust1) Registry.empty).1.getD failCustomerCand) ≠
       custNameDobKey ((makeCustomerUnique (fun _ => wCust2) wCustReg).1.getD failCustomerCand)) ∧
    restKey ((makeRestaurantUnique (fun _ => wRest1) Registry.empty).1.getD failRestaurantCand) ≠
      restKey ((makeRestaurantUnique (fun _ => wRest2) wRestReg).1.getD failRestaurantCand) ∧
    menuKey ((makeMenuUnique (pys "r-9") (fun _ => wMenu1) Registry.empty).1.getD failMenuCand) ≠
      menuKey ((makeMenuUnique (pys "r-9") (fun _ => wMenu2) wMenuReg).1.getD failMenuCand) ∧
    agentKey ((makeDeliveryAgentUnique (fun _ => wAgent1) Registry.empty).1.getD failAgentCand) ≠
      agentKey ((makeDeliveryAgentUnique (fun _ => wAgent2) wAgentReg).1.getD failAgentCand) :=
  c2_natural_key_uniqueness
    (fun _ => wCust1) (fun _ => wCust2) (fun _ => wRest1) (fun _ => wRest2)
    (fun _ => wMenu1) (fun _ => wMenu2) (fun _ => wAgent1) (fun _ => wAgent2)
    (pys "r-9") (pys "r-9")
    Registry.empty wCustReg Registry.empty wRestReg
    Registry.empty wMenuReg Registry.empty wAgentReg
    (by with_unfolding_all decide) (Registry.Sub.rfl _)
    (by with_unfolding_all decide)
    (by with_unfolding_all decide) (Registry.Sub.rfl _)
    (by with_unfolding_all decide)
    (by with_unfolding_all decide) (Registry.Sub.rfl _)
    (by with_unfolding_all decide)
    (by with_unfolding_all decide) (Registry.Sub.rfl _)
    (by with_unfolding_all decide)

/-!
## C7: `make_order_with_items`
-/

theorem validateOrderItem_some {it v : OrderItem}
    (h : validateOrderItem it = some v) :
    v = { it with price := roundHalfUp2 it.price,
                  subtotal := roundHalfUp2 it.subtotal } := by
  unfold validateOrderItem at h
  dsimp only at h
  split at h
  · exact (Option.some_inj.mp h).symm
  · exact absurd h (by simp)

theorem validateOrder_some {o v : Order} (h : validateOrder o = some v) :
    v = { o with totalamount := roundHalfUp2 o.totalamount } := by
  unfold validateOrder at h
  split at h
  · exact (Option.some_inj.mp h).symm
  · exact absurd h (by simp)

/-- Every surviving order item has a subtotal that is a whole number of
cents (it came out of `to_decimal`). -/
theorem orderItemsSurviving_cents (oid : PyStr) (iid : ℕ → PyStr)
    (chosen : List Menu) (qty : ℕ → ℕ) (x : OrderItem)
    (hx : x ∈ orderItemsSurviving oid iid chosen qty) :
    ∃ z : ℤ, x.subtotal = (z : ℚ) / 100 := by
  obtain ⟨jm, -, hv⟩ := List.mem_filterMap.mp hx
  have := validateOrderItem_some hv
  rw [this]
  exact roundHalfUp2_exists_int _

/-- The plain order record assembled by `make_order_with_items` before
validation. -/
def rawOrder (cid rid : PyStr) (total : ℚ) (odate ocreated : PyStr)
    (status paymeth : Option PyStr) (oid : PyStr) : Order :=
  { order_id := oid
    customer_id := cid
    restaurant_id := rid
    order_date := odate
    totalamount := total
    status := status
    paymentmethod := paymeth
    created_date := ocreated }

/-- Fallback record for reading an optional order. -/
def wOrderD : Order := rawOrder [] [] 0 [] [] none none []

/-- C7: `make_order_with_items` returns `(None, [])` when the menu list is
empty or when no generated item validates; an order is returned only when
at least one item survived, the returned item list is exactly the
surviving items, and the validated order's total equals the sum of the
surviving subtotals plus the half-up-rounded surcharge `u` drawn from
`[10, 60)`. -/
theorem c7_order_null_and_total (cid rid : PyStr) (menus : List Menu)
    (kSeed sampleSeed : ℕ) (qty : ℕ → ℕ) (u : ℚ) (oid : PyStr)
    (iid : ℕ → PyStr) (odate ocreated : PyStr) (status paymeth : Option PyStr) :
    (menus = [] →
      makeOrderWithItems cid rid menus kSeed sampleSeed qty u oid iid odate
        ocreated status paymeth = (none, [])) ∧
    (orderItemsSurviving oid iid (chosenMenus menus kSeed sampleSeed) qty = [] →
      makeOrderWithItems cid rid menus kSeed sampleSeed qty u oid iid odate
        ocreated status paymeth = (none, [])) ∧
    ((makeOrderWithItems cid rid menus kSeed sampleSeed qty u oid iid odate
        ocreated status paymeth).1.isSome = true →
      orderItemsSurviving oid iid (chosenMenus menus kSeed sampleSeed) qty ≠ [] ∧
      (makeOrderWithItems cid rid menus kSeed sampleSeed qty u oid iid odate
        ocreated status paymeth).2 =
        orderItemsSurviving oid iid (chosenMenus menus kSeed sampleSeed) qty) ∧
    (10 ≤ u → u < 60 →
      (makeOrderWithItems cid rid menus kSeed sampleSeed qty u oid iid odate
        ocreated status paymeth).1.isSome = true →
      ((makeOrderWithItems cid rid menus kSeed sampleSeed qty u oid iid odate
        ocreated status paymeth).1.getD wOrderD).totalamount =
        ((orderItemsSurviving oid iid (chosenMenus menus kSeed sampleSeed) qty).map
          OrderItem.subtotal).sum + roundHalfUp2 u) := by
  refine ⟨?_, ?_, ?_, ?_⟩
  · intro h
    subst h
    rfl
  · intro hitems
    unfold makeOrderWithItems
    rcases hm : menus.isEmpty with - | -
    · simp only [Bool.false_eq_true, if_false]
      rw [hitems]
      rfl
    · simp
  · intro hsome
    unfold makeOrderWithItems at hsome ⊢
    rcases hm : menus.isEmpty with - | -
    · simp only [hm, Bool.false_eq_true, if_false] at hsome ⊢
      rcases hi : (orderItemsSurviving oid iid (chosenMenus menus kSeed sampleSeed) qty).isEmpty with - | -
      · simp only [hi, Bool.false_eq_true, if_false] at hsome ⊢
        exact ⟨by simpa using hi, trivial⟩
      · simp [hi] at hsome
    · simp [hm] at hsome
  · intro h10 h60 hsome
    unfold makeOrderWithItems at hsome ⊢
    rcases hm : menus.isEmpty with - | -
    · simp only [hm, Bool.false_eq_true, if_false] at hsome ⊢
      rcases hi : (orderItemsSurviving oid iid (chosenMenus menus kSeed sampleSeed) qty).isEmpty with - | -
      · simp only [hi, Bool.false_eq_true, if_false] at hsome ⊢
        obtain ⟨v, hv⟩ := Option.isSome_iff_exists.mp hsome
        obtain ⟨zs, hzs⟩ := sum_cents
          ((orderItemsSurviving oid iid (chosenMenus menus kSeed sampleSeed) qty).map
            OrderItem.subtotal)
          (by
            intro x hx
            obtain ⟨it, hit, rfl⟩ := List.mem_map.mp hx
            exact orderItemsSurviving_cents _ _ _ _ _ hit)
        obtain ⟨zu, hzu⟩ := roundHalfUp2_exists_int u
        have hz : ((orderItemsSurviving oid iid (chosenMenus menus kSeed sampleSeed) qty).map
            OrderItem.subtotal).sum + roundHalfUp2 u = ((zs + zu : ℤ) : ℚ) / 100 := by
          rw [hzs, hzu]
          push_cast
          ring
        rw [hv, Option.getD_some, validateOrder_some hv]
        show roundHalfUp2 (((orderItemsSurviving oid iid
            (chosenMenus menus kSeed sampleSeed) qty).map OrderItem.subtotal).sum +
              roundHalfUp2 u) = _
        rw [hz, roundHalfUp2_intCast_div]
      · simp [hi] at hsome
    · simp [hm] at hsome

/-- A witness menu record for the order factory. -/
def wOrderMenu : Menu := { wMenu1 with restaurant_id := pys "r" }

/-- C7, exercised at a concrete call: one chosen menu item of price 50,
quantity 1, surcharge 25 — the emitted order's total is the subtotal sum
plus the rounded surcharge. -/
theorem c7_order_total_exercised :
    ((makeOrderWithItems (pys "c") (pys "r") [wOrderMenu] 0 0 (fun _ => 0) 25
        (pys "o") (fun _ => pys "i") (pys "2024-01-02") (pys "2024-01-02")
        none none).1.getD wOrderD).totalamount =
      ((orderItemsSurviving (pys "o") (fun _ => pys "i")
          (chosenMenus [wOrderMenu] 0 0) (fun _ => 0)).map
        OrderItem.subtotal).sum + roundHalfUp2 25 :=
  (c7_order_null_and_total (pys "c") (pys "r") [wOrderMenu] 0 0 (fun _ => 0) 25
      (pys "o") (fun _ => pys "i") (pys "2024-01-02") (pys "2024-01-02")
      none none).2.2.2
    (by norm_num) (by norm_num) (by with_unfolding_all decide)

/-- C4, exercised: an accepted customer's email is the candidate's email
verbatim, and a concrete generated email has exactly one `'@'`. -/
theorem c4_email_amended_witness :
    (validateCustomer cexCustomer).all (fun r => r.email == cexCustomer.email) = true ∧
    (mkCustomerEmail (pys "Ann") (pys "123") (pys "gmail")).count '@' = 1 :=
  ⟨c4_email_amended.1 cexCustomer,
   c4_email_amended.2 (pys "Ann") (pys "123") (pys "gmail")
     (by decide) (by decide) (by decide)⟩

/-!
## C9: the menu-stage fallback
-/

/-- Every per-restaurant menu list produced by the menu stage is
nonempty: either the generation loop validated something or the fallback
was appended. -/
theorem menusForRestaurant_ne_nil (rid : PyStr) (cnt : ℕ) (gen : ℕ → ℕ → Menu)
    (mid now : PyStr) (s : Registry) :
    (menusForRestaurant rid cnt gen mid now s).1 ≠ [] := by
  unfold menusForRestaurant
  dsimp only
  split
  · simp
  next h =>
    intro hnil
    apply h
    rw [hnil]
    rfl

theorem assocFind_some_mem (l : List (PyStr × List Menu)) (k : PyStr)
    (v : List Menu) (h : assocFind l k = some v) : ∃ kk, (kk, v) ∈ l := by
  induction l with
  | nil => simp [assocFind] at h
  | cons e t ih =>
    rcases e with ⟨k', v'⟩
    simp only [assocFind] at h
    split at h
    · exact ⟨k', by simp [Option.some_inj.mp h]⟩
    · obtain ⟨kk, hkk⟩ := ih h
      exact ⟨kk, List.mem_cons_of_mem _ hkk⟩

theorem assocFind_append (l1 l2 : List (PyStr × List Menu)) (k : PyStr) :
    assocFind (l1 ++ l2) k =
      match assocFind l1 k with
      | some v => some v
      | none => assocFind l2 k := by
  induction l1 with
  | nil => rfl
  | cons e t ih =>
    rcases e with ⟨k', v'⟩
    rw [List.cons_append]
    by_cases hk : k' = k
    · simp [assocFind, hk]
    · simp only [assocFind, hk, if_false]
      rw [ih]

/-- Menu-stage invariant: every association value is nonempty, and every
processed restaurant's id resolves to some value. -/
theorem menusStage_values (env : BatchEnv) (rs : List Restaurant) (i : ℕ)
    (s0 : Registry) :
    (∀ e ∈ (menusStage env i rs s0).1, e.2 ≠ []) ∧
    (∀ r ∈ rs, assocFind (menusStage env i rs s0).1 r.restaurant_id ≠ none) := by
  induction rs generalizing i s0 with
  | nil => exact ⟨by simp [menusStage], by simp⟩
  | cons r rest ih =>
    have hmlne := menusForRestaurant_ne_nil r.restaurant_id
      (pyRandint 3 6 (env.nMenuSeed i)) (env.menuCand i)
      (env.fallbackId i) (env.fallbackNow i) s0
    obtain ⟨ihv, ihf⟩ := ih (i + 1) (menusForRestaurant r.restaurant_id
      (pyRandint 3 6 (env.nMenuSeed i)) (env.menuCand i)
      (env.fallbackId i) (env.fallbackNow i) s0).2
    constructor
    · intro e he
      simp only [menusStage] at he
      rcases List.mem_append.mp he with he1 | he2
      · exact ihv e he1
      · simp only [List.mem_singleton] at he2
        rw [he2]
        exact hmlne
    · intro r' hr'
      simp only [menusStage]
      rw [assocFind_append]
      rcases List.mem_cons.mp hr' with rfl | hr'rest
      · split
        · simp
        · simp [assocFind]
      · have hne := ihf r' hr'rest
        split
        next v heq => simp
        next heq => exact absurd heq hne

/-- C9: if no generated menu item validates for a restaurant, the menu
stage gives it exactly one hard-coded fallback item and registers the
fallback's `(restaurant_id, item name)` key; in every case the
restaurant's menu list is nonempty, and in a full menu stage every
restaurant's id looks up a nonempty menu list. -/
theorem c9_menu_fallback (rid : PyStr) (cnt : ℕ) (gen : ℕ → ℕ → Menu)
    (mid now : PyStr) (s : Registry) (env : BatchEnv)
    (restaurants : List Restaurant) (i : ℕ) (s0 : Registry) :
    ((menuGenLoop rid gen cnt 0 s).1 = [] →
      (menusForRestaurant rid cnt gen mid now s).1 = [mkFallback rid mid now] ∧
      (rid, pyLower (pyStrip (mkFallback rid mid now).itemname)) ∈
        (menusForRestaurant rid cnt gen mid now s).2.menuKeys) ∧
    (menusForRestaurant rid cnt gen mid now s).1 ≠ [] ∧
    (∀ r ∈ restaurants,
      ((assocFind (menusStage env i restaurants s0).1 r.restaurant_id).getD []) ≠ []) := by
  refine ⟨?_, menusForRestaurant_ne_nil _ _ _ _ _ _, ?_⟩
  · intro h
    have hb : (menuGenLoop rid gen cnt 0 s).1.isEmpty = true := by rw [h]; rfl
    unfold menusForRestaurant
    simp only [hb, if_true]
    exact ⟨by trivial, List.mem_cons_self _ _⟩
  · intro r hr
    obtain ⟨hvals, hfinds⟩ := menusStage_values env restaurants i s0
    rcases hfound : assocFind (menusStage env i restaurants s0).1 r.restaurant_id with - | v
    · exact absurd hfound (hfinds r hr)
    · obtain ⟨kk, hkk⟩ := assocFind_some_mem _ _ _ hfound
      simpa using hvals (kk, v) hkk

/-- An always-failing menu candidate stream for the fallback witness. -/
def wFailMenuGen : ℕ → ℕ → Menu := fun _ _ => failMenuCand

/-- A (valid) witness address candidate. -/
def wAddrCand : Address :=
  { address_id := pys "ad-1"
    customer_id := []
    flatno := none
    houseno := none
    floor := none
    building := none
    landmark := none
    coordinates := none
    primaryflag := none
    address_type := none
    locality := none
    city := none
    state := none
    pincode := none
    created_date := pys "2024-01-02" }

/-- A (valid) witness delivery candidate. -/
def wDelivCand : Delivery :=
  { delivery_id := pys "d-1"
    order_id := []
    deliveryagent_id := []
    deliverystatus := none
    estimated_time := none
    address_id := []
    delivery_date := none
    created_date := pys "2024-01-02" }

/-- A batch environment whose menu candidates always fail validation. -/
def wEnvMenuFail : BatchEnv :=
  { custCand := fun _ _ => wCust1
    nAddrSeed := fun _ => 0
    addrCand := fun _ _ => wAddrCand
    doLogin := fun _ => false
    loginCand := fun _ => cexLoginAudit
    lastloginStr := fun _ => pys "2024-01-02"
    restCand := fun _ _ => wRest1
    nMenuSeed := fun _ => 0
    menuCand := fun _ => wFailMenuGen
    fallbackId := fun _ => pys "fb-1"
    fallbackNow := fun _ => pys "2024-01-02"
    agentCand := fun _ _ => wAgent1
    pickCSeed := fun _ => 0
    pickRSeed := fun _ => 0
    kSeed := fun _ => 0
    sampleSeed := fun _ => 0
    qtySeed := fun _ _ => 0
    surcharge := fun _ => 25
    orderIds := fun _ => pys "o"
    itemIds := fun _ _ => pys "i"
    orderDateStr := fun _ => pys "2024-01-02"
    orderCreatedStr := fun _ => pys "2024-01-02"
    orderStatus := fun _ => none
    payMethod := fun _ => none
    doDeliv := fun _ => false
    pickASeed := fun _ => 0
    pickAgSeed := fun _ => 0
    delivCand := fun _ => wDelivCand }

/-- C9, exercised: a restaurant whose three generated menu candidates all
fail validation ends the stage with exactly the fallback item, its key
registered. -/
theorem c9_menu_fallback_exercised :
    (menusForRestaurant (pys "r-7") 3 wFailMenuGen (pys "fb-1") (pys "2024-01-02")
      Registry.empty).1 = [mkFallback (pys "r-7") (pys "fb-1") (pys "2024-01-02")] ∧
    (pys "r-7", pyLower (pyStrip (mkFallback (pys "r-7") (pys "fb-1")
        (pys "2024-01-02")).itemname)) ∈
      (menusForRestaurant (pys "r-7") 3 wFailMenuGen (pys "fb-1") (pys "2024-01-02")
        Registry.empty).2.menuKeys :=
  (c9_menu_fallback (pys "r-7") 3 wFailMenuGen (pys "fb-1") (pys "2024-01-02")
      Registry.empty wEnvMenuFail [] 0 Registry.empty).1
    (by with_unfolding_all decide)

/-!
## C10: deliveries reference existing addresses and agents
-/

/-- The delivery records among the rows. -/
def deliveriesIn (rows : List Row) : List Delivery :=
  rows.filterMap fun r =>
    match r with
    | Row.delivery d => some d
    | _ => none

/-- Fallback value for reading an optional `BatchParts`. -/
def dParts : BatchParts := ⟨[], [], [], [], [], []⟩

theorem validateDelivery_some {d v : Delivery} (h : validateDelivery d = some v) :
    v = d := by
  unfold validateDelivery at h
  split at h
  · exact (Option.some_inj.mp h).symm
  · exact absurd h (by simp)

theorem pyChoice_mem {α : Type} (l : List α) (seed : ℕ) (x : α)
    (h : pyChoice l seed = some x) : x ∈ l := by
  unfold pyChoice at h
  exact List.get?_mem h

theorem deliveriesIn_append (l1 l2 : List Row) :
    deliveriesIn (l1 ++ l2) = deliveriesIn l1 ++ deliveriesIn l2 :=
  List.filterMap_append _ _ _

theorem deliveriesIn_map_customer (l : List Customer) :
    deliveriesIn (l.map Row.customer) = [] := by
  induction l with
  | nil => rfl
  | cons a t ih => simpa [deliveriesIn, List.filterMap_cons] using ih

theorem deliveriesIn_map_restaurant (l : List Restaurant) :
    deliveriesIn (l.map Row.restaurant) = [] := by
  induction l with
  | nil => rfl
  | cons a t ih => simpa [deliveriesIn, List.filterMap_cons] using ih

theorem deliveriesIn_map_menu (l : List Menu) :
    deliveriesIn (l.map Row.menu) = [] := by
  induction l with
  | nil => rfl
  | cons a t ih => simpa [deliveriesIn, List.filterMap_cons] using ih

theorem deliveriesIn_map_agent (l : List DeliveryAgent) :
    deliveriesIn (l.map Row.agent) = [] := by
  induction l with
  | nil => rfl
  | cons a t ih => simpa [deliveriesIn, List.filterMap_cons] using ih

theorem deliveriesIn_map_address (l : List Address) :
    deliveriesIn (l.map Row.address) = [] := by
  induction l with
  | nil => rfl
  | cons a t ih => simpa [deliveriesIn, List.filterMap_cons] using ih

theorem deliveriesIn_map_orderitem (l : List OrderItem) :
    deliveriesIn (l.map Row.orderitem) = [] := by
  induction l with
  | nil => rfl
  | cons a t ih => simpa [deliveriesIn, List.filterMap_cons] using ih

/-- The address/login stage emits no delivery rows. -/
theorem addressStage_no_delivery (env : BatchEnv) (i : ℕ) (cs : List Customer) :
    deliveriesIn (addressStage env i cs).2 = [] := by
  induction cs generalizing i with
  | nil => rfl
  | cons c rest ih =>
    simp only [addressStage]
    rw [deliveriesIn_append, deliveriesIn_append, deliveriesIn_map_address,
      ih (i + 1)]
    simp only [List.nil_append, List.append_nil]
    split
    · split
      · rfl
      · rfl
    · rfl

/-- An address accepted by the address stage is one of the stage's rows. -/
theorem addressStage_mem (env : BatchEnv) (i : ℕ) (cs : List Customer)
    (a : Address) (ha : a ∈ (addressStage env i cs).1) :
    Row.address a ∈ (addressStage env i cs).2 := by
  induction cs generalizing i with
  | nil => simp [addressStage] at ha
  | cons c rest ih =>
    simp only [addressStage] at ha ⊢
    rcases List.mem_append.mp ha with h1 | h2
    · exact List.mem_append.mpr (Or.inl (List.mem_append.mpr
        (Or.inl (List.mem_map_of_mem Row.address h1))))
    · exact List.mem_append.mpr (Or.inr (ih (i + 1) h2))

/-- The menu stage emits no delivery rows. -/
theorem menusStage_no_delivery (env : BatchEnv) (i : ℕ) (rs : List Restaurant)
    (s : Registry) : deliveriesIn (menusStage env i rs s).2.1 = [] := by
  induction rs generalizing i s with
  | nil => rfl
  | cons r rest ih =>
    simp only [menusStage]
    rw [deliveriesIn_append, deliveriesIn_map_menu, ih]
    rfl

/-- Any delivery emitted by the delivery step of one order iteration
references an address of the address pool and an agent of the agent
pool. -/
theorem deliveryStep_refs (env : BatchEnv) (t : ℕ) (addresses : List Address)
    (agents : List DeliveryAgent) (cust : Customer) (o : Order) :
    ∀ d ∈ deliveriesIn (deliveryStep env t addresses agents cust o),
      d.address_id ∈ addresses.map Address.address_id ∧
      d.deliveryagent_id ∈ agents.map DeliveryAgent.deliveryagent_id := by
  intro d hd
  unfold deliveryStep at hd
  split at hd
  case isTrue hcond =>
    dsimp only at hd
    rcases haid : (if !(addresses.filter fun a => a.customer_id = cust.customer_id).isEmpty then
        (pyChoice (addresses.filter fun a => a.customer_id = cust.customer_id) (env.pickASeed t)).map Address.address_id
      else if !addresses.isEmpty then
        (pyChoice addresses (env.pickASeed t)).map Address.address_id
      else none) with - | aid
    · rw [haid] at hd
      simp [deliveriesIn] at hd
    · rw [haid] at hd
      dsimp only at hd
      rcases hag : pyChoice agents (env.pickAgSeed t) with - | agent
      · rw [hag] at hd
        simp [deliveriesIn] at hd
      · rw [hag] at hd
        dsimp only at hd
        rcases hmk : makeDelivery (env.delivCand t) o.order_id
            agent.deliveryagent_id aid with - | dr
        · rw [hmk] at hd
          simp [deliveriesIn] at hd
        · rw [hmk] at hd
          simp only [deliveriesIn, List.filterMap_cons, List.filterMap_nil] at hd
          cases hd with
          | tail _ hmem => exact absurd hmem (List.not_mem_nil d)
          | head =>
            have hdr := validateDelivery_some hmk
            constructor
            · rw [hdr]
              show aid ∈ _
              split at haid
              · obtain ⟨a', ha', ha'2⟩ := Option.map_eq_some'.mp haid
                have hmem := List.mem_filter.mp (pyChoice_mem _ _ _ ha')
                rw [← ha'2]
                exact List.mem_map_of_mem _ hmem.1
              · split at haid
                · obtain ⟨a', ha', ha'2⟩ := Option.map_eq_some'.mp haid
                  rw [← ha'2]
                  exact List.mem_map_of_mem _ (pyChoice_mem _ _ _ ha')
                · simp at haid
            · rw [hdr]
              show agent.deliveryagent_id ∈ _
              exact List.mem_map_of_mem _ (pyChoice_mem _ _ _ hag)
  case isFalse =>
    simp [deliveriesIn] at hd

/-- The order loop only adds delivery rows satisfying the reference
property. -/
theorem ordersLoop_deliveries (env : BatchEnv) (n : ℕ)
    (customers : List Customer) (restaurants : List Restaurant)
    (menus : List (PyStr × List Menu)) (addresses : List Address)
    (agents : List DeliveryAgent) (prevLen : ℕ) (b t : ℕ) (acc : List Row)
    (out : List Row)
    (hacc : ∀ d ∈ deliveriesIn acc,
      d.address_id ∈ addresses.map Address.address_id ∧
      d.deliveryagent_id ∈ agents.map DeliveryAgent.deliveryagent_id)
    (h : ordersLoop env n customers restaurants menus addresses agents
      prevLen b t acc = some out) :
    ∀ d ∈ deliveriesIn out,
      d.address_id ∈ addresses.map Address.address_id ∧
      d.deliveryagent_id ∈ agents.map DeliveryAgent.deliveryagent_id := by
  induction b generalizing t acc with
  | zero =>
    simp only [ordersLoop, Option.some_inj] at h
    rw [← h]
    exact hacc
  | succ b ih =>
    rw [ordersLoop] at h
    split at h
    · rcases hpc : pyChoice customers (env.pickCSeed t) with - | cust <;> rw [hpc] at h
      · simp at h
      · rcases hpr : pyChoice restaurants (env.pickRSeed t) with - | rest <;> rw [hpr] at h
        · simp at h
        · dsimp only at h
          split at h
          next o hmo =>
            refine ih (t + 1) _ ?_ h
            intro d hd
            rw [deliveriesIn_append, deliveriesIn_append, deliveriesIn_append] at hd
            rw [deliveriesIn_map_orderitem] at hd
            rcases List.mem_append.mp hd with hdl | hdr
            · rcases List.mem_append.mp hdl with hdl1 | hdl2
              · rcases List.mem_append.mp hdl1 with hda | hdo
                · exact hacc d hda
                · simp [deliveriesIn] at hdo
              · simp at hdl2
            · exact deliveryStep_refs env t addresses agents cust o d hdr
          next hmo => exact ih (t + 1) acc hacc h
    · simp only [Option.some_inj] at h
      rw [← h]
      exact hacc

/-- Inversion of a successful `buildBatchParts`: the pools and rows of
the result are the corresponding stage outputs, the rows are the stage
rows followed by the order-loop rows, and the order loop succeeded. -/
theorem buildBatchParts_inv (env : BatchEnv) (n : ℕ) (s0 : Registry)
    (p : BatchParts) (h : buildBatchParts env n s0 = some p) :
    ∃ (sR : Registry) (orderRows : List Row),
      p.addresses = (addressStage env 0 p.customers).1 ∧
      p.rows = p.customers.map Row.customer ++ (addressStage env 0 p.customers).2 ++
        p.restaurants.map Row.restaurant ++ (menusStage env 0 p.restaurants sR).2.1 ++
        p.agents.map Row.agent ++ orderRows ∧
      ordersLoop env n p.customers p.restaurants p.menus p.addresses p.agents
        (p.customers.map Row.customer ++ (addressStage env 0 p.customers).2 ++
          p.restaurants.map Row.restaurant ++ (menusStage env 0 p.restaurants sR).2.1 ++
          p.agents.map Row.agent).length (n * 10) 0 [] = some orderRows := by
  unfold buildBatchParts at h
  dsimp only at h
  split at h
  next horders => exact absurd h (by simp)
  next orderRows horders =>
    have hp := Option.some_inj.mp h
    refine ⟨(restaurantsLoop env 0 (max 5 (n / 50))
      (customersLoop env (max 10 (n / 20)) (max 10 (n / 20) * 10) 0 [] s0).2).2,
      orderRows, ?_, ?_, ?_⟩
    · rw [← hp]
    · rw [← hp]
    · rw [← hp]
      exact horders

/-- C10: in every successfully built batch, each emitted delivery
references the `address_id` of an address produced earlier in the batch
and the id of an accepted agent; every address of the pool is itself a
row of the batch; if the batch has no addresses or no agents, no delivery
row is emitted (the loop raises no error — it simply skips the delivery);
and the deliveries of the truncated output are among the assembled
deliveries. -/
theorem c10_delivery_referential_integrity (env : BatchEnv) (n : ℕ)
    (s0 : Registry) :
    (∀ d ∈ deliveriesIn ((buildBatchParts env n s0).getD dParts).rows,
      d.address_id ∈
        ((buildBatchParts env n s0).getD dParts).addresses.map Address.address_id ∧
      d.deliveryagent_id ∈
        ((buildBatchParts env n s0).getD dParts).agents.map DeliveryAgent.deliveryagent_id) ∧
    ((((buildBatchParts env n s0).getD dParts).addresses = [] ∨
        ((buildBatchParts env n s0).getD dParts).agents = []) →
      deliveriesIn ((buildBatchParts env n s0).getD dParts).rows = []) ∧
    (∀ a ∈ ((buildBatchParts env n s0).getD dParts).addresses,
      Row.address a ∈ ((buildBatchParts env n s0).getD dParts).rows) ∧
    (∀ out ∈ buildBatch env n s0,
      deliveriesIn out ⊆ deliveriesIn ((buildBatchParts env n s0).getD dParts).rows) := by
  rcases hbp : buildBatchParts env n s0 with - | p
  · simp only [hbp, Option.getD_none]
    refine ⟨by simp [dParts, deliveriesIn], by simp [dParts, deliveriesIn],
      by simp [dParts], ?_⟩
    intro out hout
    rw [buildBatch, buildBatchRows, hbp] at hout
    simp at hout
  · simp only [hbp, Option.getD_some]
    obtain ⟨sR, orderRows, haddrs, hrows, horders⟩ :=
      buildBatchParts_inv env n s0 p hbp
    have hprev0 : deliveriesIn (p.customers.map Row.customer ++
        (addressStage env 0 p.customers).2 ++ p.restaurants.map Row.restaurant ++
        (menusStage env 0 p.restaurants sR).2.1 ++ p.agents.map Row.agent) = [] := by
      rw [deliveriesIn_append, deliveriesIn_append, deliveriesIn_append,
        deliveriesIn_append, deliveriesIn_map_customer, addressStage_no_delivery,
        deliveriesIn_map_restaurant, menusStage_no_delivery, deliveriesIn_map_agent]
      rfl
    have hdel : deliveriesIn p.rows = deliveriesIn orderRows := by
      rw [hrows, deliveriesIn_append, hprev0]
      rfl
    have hrefs := ordersLoop_deliveries env n p.customers p.restaurants p.menus
      p.addresses p.agents _ (n * 10) 0 [] orderRows
      (by intro d hd; exact absurd hd (List.not_mem_nil d)) horders
    refine ⟨?_, ?_, ?_, ?_⟩
    · intro d hd
      rw [hdel] at hd
      exact hrefs d hd
    · intro hempty
      rw [hdel]
      rw [List.eq_nil_iff_forall_not_mem]
      intro d hd
      obtain ⟨hda, hdg⟩ := hrefs d hd
      rcases hempty with he | he
      · rw [he] at hda
        exact absurd hda (List.not_mem_nil _)
      · rw [he] at hdg
        exact absurd hdg (List.not_mem_nil _)
    · intro a ha
      rw [haddrs] at ha
      rw [hrows]
      have := addressStage_mem env 0 p.customers a ha
      simp only [List.append_assoc, List.mem_append]
      tauto
    · intro out hout
      rw [buildBatch, buildBatchRows, hbp] at hout
      simp only [Option.map_some', Option.mem_def, Option.some_inj] at hout
      rw [← hout]
      split
      · exact fun d hd =>
          ((List.take_sublist n p.rows).filterMap _).subset hd
      · exact fun d hd => hd

/-!
## C8: truncation to the target batch size
-/

/-- C8: `build_batch` never returns more than `batch_size` rows, and when
the assembled collection exceeds the target it returns exactly the first
`batch_size` rows (`rows[:batch_size]`), whose length is exactly the
target. -/
theorem c8_truncation (env : BatchEnv) (n : ℕ) (s0 : Registry) :
    ((buildBatch env n s0).getD []).length ≤ n ∧
    (n < ((buildBatchRows env n s0).getD []).length →
      buildBatch env n s0 = some (((buildBatchRows env n s0).getD []).take n) ∧
      (((buildBatchRows env n s0).getD []).take n).length = n) := by
  rcases hbr : buildBatchRows env n s0 with - | rows
  · rw [buildBatch, hbr]
    exact ⟨by simp, by simp⟩
  · rw [buildBatch, hbr]
    simp only [Option.map_some', Option.getD_some]
    by_cases h : n < rows.length
    · rw [if_pos h]
      refine ⟨?_, fun _ => ⟨rfl, ?_⟩⟩
      · simp [List.length_take]
      · simp [List.length_take, Nat.min_eq_left (Nat.le_of_lt h)]
    · rw [if_neg h]
      exact ⟨by simpa using Nat.not_lt.mp h, fun hlt => absurd hlt h⟩

/-- Digit string of a natural number. -/
def natStr (t : ℕ) : PyStr := Nat.toDigits 10 t

/-- A fresh valid 10-digit mobile per call index. -/
def wMobile (t : ℕ) : PyStr := '9' :: natStr (100000000 + t)

/-- A batch environment whose factories all succeed with fresh keys on
the first attempt. -/
def wEnvOk : BatchEnv :=
  { wEnvMenuFail with
      custCand := fun t _ => { wCust1 with
        mobile := wMobile t,
        email := natStr t ++ pys "@g.com",
        name := natStr t }
      restCand := fun i _ => { wRest1 with
        name := pys "R" ++ natStr i,
        location_id := some (natStr i) }
      menuCand := fun _ j _ => { wMenu1 with itemname := pys "I" ++ natStr j }
      agentCand := fun i _ => { wAgent1 with phone := wMobile (500 + i) } }

/-- C8, exercised: with target size 1 the stages assemble more than one
row and the returned batch is exactly the first row. -/
theorem c8_truncation_witness :
    ((buildBatch wEnvOk 1 Registry.empty).getD []).length ≤ 1 ∧
    (buildBatch wEnvOk 1 Registry.empty =
        some (((buildBatchRows wEnvOk 1 Registry.empty).getD []).take 1) ∧
      (((buildBatchRows wEnvOk 1 Registry.empty).getD []).take 1).length = 1) :=
  ⟨(c8_truncation wEnvOk 1 Registry.empty).1,
   (c8_truncation wEnvOk 1 Registry.empty).2 (by with_unfolding_all decide)⟩

/-- The witness environment with deliveries switched on. -/
def wEnvDel : BatchEnv := { wEnvOk with doDeliv := fun _ => true }

/-- The delivery record `wEnvDel` produces in every order iteration. -/
def wDeliveryRec : Delivery :=
  { delivery_id := pys "d-1"
    order_id := pys "o"
    deliveryagent_id := pys "a-1"
    deliverystatus := none
    estimated_time := none
    address_id := pys "ad-1"
    delivery_date := none
    created_date := pys "2024-01-02" }

/-- C10, exercised: a batch built with deliveries on emits a delivery
record whose address and agent references resolve within the batch's
pools. -/
theorem c10_delivery_exercised :
    wDeliveryRec.address_id ∈
      ((buildBatchParts wEnvDel 46 Registry.empty).getD dParts).addresses.map
        Address.address_id ∧
    wDeliveryRec.deliveryagent_id ∈
      ((buildBatchParts wEnvDel 46 Registry.empty).getD dParts).agents.map
        DeliveryAgent.deliveryagent_id :=
  (c10_delivery_referential_integrity wEnvDel 46 Registry.empty).1 wDeliveryRec
    (by with_unfolding_all decide)

end FakerProducer
